import Mathlib

/-!
# PDU engine of the iSCSI initiator (`lib/pdu.c`)

A shallow embedding of `lib/pdu.c` and the properties of its header codec,
data-buffer manager, PDU allocation and response dispatcher.

Conventions of the embedding.

* A byte buffer (`unsigned char *`) is a `List Nat`; every byte the code stores
  is reduced `% 256`.  The `NULL` buffer is the empty list.
* `int` values are `Int`; the result of `int` arithmetic is reduced to the
  32-bit two's-complement range by `wrap_int32`, and a conversion to
  `uint32_t` is `to_uint32`.
* `malloc` may fail: each call site receives the outcome of its request as an
  argument (`none` for `NULL`, `some junk` for a block whose initial contents
  are the arbitrary bytes `junk 0, junk 1, ...`).
* `iscsi_set_error` only records a diagnostic; the message of the last call is
  returned next to the result and is not part of the session state.
* A pair `(dptr, dsize)` of a pointer and a byte count is one byte list whose
  length is `dsize`.
-/

namespace Libiscsi

/-! ## Machine integers -/

/-- Conversion of an `int` to `uint32_t`: the low 32 bits. -/
def to_uint32 (x : Int) : Nat := (x % 4294967296).toNat

/-- Reduction of an integer to the range of a 32-bit signed `int`: the low 32
bits u read in two's complement, u below 2^31 and u - 2^32 from 2^31 on. -/
def wrap_int32 (x : Int) : Int :=
  if to_uint32 x < 2147483648 then (to_uint32 x : Int) else (to_uint32 x : Int) - 4294967296

/-- The C expression `(x + 3) & 0xfffffffc` for an `int` x: the sum is an `int`,
the mask is an `unsigned int`, so the conjunction is computed on 32 unsigned
bits and the result converted back to `int`. -/
def align4 (x : Int) : Int :=
  wrap_int32 (Int.ofNat (Nat.land (to_uint32 (wrap_int32 (x + 3))) 0xfffffffc))

/-! ## Memory primitives -/

/-- The call `memcpy(&buf[off], src, |src|)`.  The write is in bounds when
`off + |src| ≤ |buf|`; the buffer then keeps its length. -/
def memcpy (buf : List Nat) (off : Nat) (src : List Nat) : List Nat :=
  buf.take off ++ src ++ buf.drop (off + src.length)

/-- The call `memset(&buf[off], c, n)`. -/
def memset (buf : List Nat) (off : Nat) (c : Nat) (n : Nat) : List Nat :=
  memcpy buf off (List.replicate n (c % 256))

/-- The byte `buf[i]` (0 outside the buffer). -/
def byte_at (buf : List Nat) (i : Nat) : Nat := buf.getD i 0

/-- The four bytes of a 32-bit value in network byte order, `htonl(v)` as it
lies in memory. -/
def htonl_bytes (v : Nat) : List Nat :=
  [v / 16777216 % 256, v / 65536 % 256, v / 256 % 256, v % 256]

/-- The store `*(uint32_t *)&buf[off] = htonl(v)`. -/
def store_be32 (buf : List Nat) (off : Nat) (v : Nat) : List Nat :=
  memcpy buf off (htonl_bytes v)

/-- The load `ntohl(*(uint32_t *)&buf[off])`. -/
def load_be32 (buf : List Nat) (off : Nat) : Nat :=
  byte_at buf off * 16777216 + byte_at buf (off + 1) * 65536
    + byte_at buf (off + 2) * 256 + byte_at buf (off + 3)

/-- The call `malloc(n)` for an `int` n.  A negative n converts to a `size_t` above
`PTRDIFF_MAX`, which no allocator grants.  Otherwise the outcome is the
argument m: `none` is `NULL`, `some junk` a block of n bytes with the
indeterminate contents given by junk. -/
def malloc (m : Option (Nat → Nat)) (n : Int) : Option (List Nat) :=
  if n < 0 then none
  else m.map (fun junk => (List.range n.toNat).map (fun i => junk i % 256))

/-! ## Data model -/

/-- Modelled from the spec: `ISCSI_HEADER_SIZE` is defined in
`iscsi-private.h`, which is not part of the sources at hand; the basic header
is the fixed 48-byte header. -/
def ISCSI_HEADER_SIZE : Nat := 48

/-- The values of `enum iscsi_opcode` that `pdu.c` names.  The enumeration is
declared in a header that is not part of the sources at hand, so the values are
a parameter of the embedding. -/
structure iscsi_opcodes where
  ISCSI_PDU_LOGIN_REQUEST : Nat
  ISCSI_PDU_NOP_IN : Nat
  ISCSI_PDU_SCSI_RESPONSE : Nat
  ISCSI_PDU_LOGIN_RESPONSE : Nat
  ISCSI_PDU_TEXT_RESPONSE : Nat
  ISCSI_PDU_DATA_IN : Nat
  ISCSI_PDU_LOGOUT_RESPONSE : Nat
  ISCSI_PDU_R2T : Nat
deriving DecidableEq, Repr

/-- The labels of the `switch` in `iscsi_process_pdu` are pairwise different,
as C requires of `case` labels. -/
def iscsi_opcodes.case_labels_distinct (oc : iscsi_opcodes) : Prop :=
  [oc.ISCSI_PDU_LOGIN_RESPONSE, oc.ISCSI_PDU_TEXT_RESPONSE,
   oc.ISCSI_PDU_LOGOUT_RESPONSE, oc.ISCSI_PDU_SCSI_RESPONSE,
   oc.ISCSI_PDU_DATA_IN, oc.ISCSI_PDU_NOP_IN, oc.ISCSI_PDU_R2T].Nodup

instance (oc : iscsi_opcodes) : Decidable oc.case_labels_distinct := by
  unfold iscsi_opcodes.case_labels_distinct; infer_instance

/-- The opcode values of RFC 3720, used for concrete runs. -/
def rfc3720_opcodes : iscsi_opcodes :=
  { ISCSI_PDU_LOGIN_REQUEST := 0x03, ISCSI_PDU_NOP_IN := 0x20,
    ISCSI_PDU_SCSI_RESPONSE := 0x21, ISCSI_PDU_LOGIN_RESPONSE := 0x23,
    ISCSI_PDU_TEXT_RESPONSE := 0x24, ISCSI_PDU_DATA_IN := 0x25,
    ISCSI_PDU_LOGOUT_RESPONSE := 0x26, ISCSI_PDU_R2T := 0x31 }

/-- The diagnostics `pdu.c` hands to `iscsi_set_error`. -/
inductive iscsi_error where
  | failed_to_allocate_pdu
  | failed_to_allocate_pdu_header
  | append_zero_size_to_iscsi_data
  | failed_to_allocate_buffer (len : Int)
  | add_data_to_null_pdu
  | append_zero_size_to_pdu
  | failed_to_add_data_to_pdu_buffer
  | cant_handle_expanded_headers
  | got_wrong_opcode (itt opcode expected : Nat)
  | login_reply_failed
  | text_reply_failed
  | logout_reply_failed
  | response_reply_failed
  | data_in_failed
  | nop_in_failed
  | r2t_failed
  | dont_know_how_to_handle_opcode (opcode : Nat)
deriving DecidableEq, Repr

/-- The `struct iscsi_data`: a buffer and its logical size. -/
structure iscsi_data where
  size : Int
  data : List Nat
deriving DecidableEq, Repr

/-- The `struct iscsi_pdu`, the members `pdu.c` reads or writes. -/
structure iscsi_pdu where
  flags : Nat
  itt : Nat
  response_opcode : Nat
  outdata : iscsi_data
deriving DecidableEq, Repr

/-- The `struct iscsi_in_pdu`: a received header and its data. -/
structure iscsi_in_pdu where
  hdr : List Nat
  data : List Nat
deriving DecidableEq, Repr

/-- The `struct scsi_task`, the command descriptor block and its size. -/
structure scsi_task where
  cdb : List Nat
  cdb_size : Nat
deriving DecidableEq, Repr

/-- The `struct iscsi_context`, the members `pdu.c` reads or writes: the ITT
counter, the ISID and the list of PDUs waiting for a reply (head first). -/
structure iscsi_context where
  itt : Nat
  isid : List Nat
  waitpdu : List iscsi_pdu
deriving DecidableEq, Repr

/-! ## Header setters -/

/-- Function `iscsi_pdu_set_itt` (pdu.c 311-315). -/
def iscsi_pdu_set_itt (pdu : iscsi_pdu) (itt : Nat) : iscsi_pdu :=
  { pdu with outdata := { pdu.outdata with data := store_be32 pdu.outdata.data 16 (itt % 4294967296) } }

/-- Function `iscsi_pdu_set_pduflags` (pdu.c 317-321). -/
def iscsi_pdu_set_pduflags (pdu : iscsi_pdu) (flags : Nat) : iscsi_pdu :=
  { pdu with outdata := { pdu.outdata with data := pdu.outdata.data.set 1 (flags % 256) } }

/-- Function `iscsi_pdu_set_immediate` (pdu.c 323-327).  The bit
`ISCSI_PDU_IMMEDIATE` is defined in a header that is not part of the sources at
hand and is an argument here. -/
def iscsi_pdu_set_immediate (ISCSI_PDU_IMMEDIATE : Nat) (pdu : iscsi_pdu) : iscsi_pdu :=
  { pdu with
    outdata :=
      { pdu.outdata with
        data := pdu.outdata.data.set 0
          (Nat.lor (byte_at pdu.outdata.data 0) ISCSI_PDU_IMMEDIATE % 256) } }

/-- Function `iscsi_pdu_set_ttt` (pdu.c 329-333). -/
def iscsi_pdu_set_ttt (pdu : iscsi_pdu) (ttt : Nat) : iscsi_pdu :=
  { pdu with outdata := { pdu.outdata with data := store_be32 pdu.outdata.data 20 (ttt % 4294967296) } }

/-- Function `iscsi_pdu_set_cmdsn` (pdu.c 335-339). -/
def iscsi_pdu_set_cmdsn (pdu : iscsi_pdu) (cmdsn : Nat) : iscsi_pdu :=
  { pdu with outdata := { pdu.outdata with data := store_be32 pdu.outdata.data 24 (cmdsn % 4294967296) } }

/-- Function `iscsi_pdu_set_datasn` (pdu.c 341-345). -/
def iscsi_pdu_set_datasn (pdu : iscsi_pdu) (datasn : Nat) : iscsi_pdu :=
  { pdu with outdata := { pdu.outdata with data := store_be32 pdu.outdata.data 36 (datasn % 4294967296) } }

/-- Function `iscsi_pdu_set_expstatsn` (pdu.c 347-351). -/
def iscsi_pdu_set_expstatsn (pdu : iscsi_pdu) (expstatsnsn : Nat) : iscsi_pdu :=
  { pdu with
    outdata := { pdu.outdata with data := store_be32 pdu.outdata.data 28 (expstatsnsn % 4294967296) } }

/-- Function `iscsi_pdu_set_bufferoffset` (pdu.c 353-357). -/
def iscsi_pdu_set_bufferoffset (pdu : iscsi_pdu) (bufferoffset : Nat) : iscsi_pdu :=
  { pdu with
    outdata := { pdu.outdata with data := store_be32 pdu.outdata.data 40 (bufferoffset % 4294967296) } }

/-- Function `iscsi_pdu_set_lun` (pdu.c 366-370): the low byte of the LUN goes
to offset 9. -/
def iscsi_pdu_set_lun (pdu : iscsi_pdu) (lun : Nat) : iscsi_pdu :=
  { pdu with outdata := { pdu.outdata with data := pdu.outdata.data.set 9 (lun % 4294967296 % 256) } }

/-- Function `iscsi_pdu_set_expxferlen` (pdu.c 372-376). -/
def iscsi_pdu_set_expxferlen (pdu : iscsi_pdu) (expxferlen : Nat) : iscsi_pdu :=
  { pdu with
    outdata := { pdu.outdata with data := store_be32 pdu.outdata.data 20 (expxferlen % 4294967296) } }

/-- Function `iscsi_pdu_set_cdb` (pdu.c 359-364): clear the 16 bytes at offset 32, then copy
`task->cdb_size` bytes of `task->cdb` there. -/
def iscsi_pdu_set_cdb (pdu : iscsi_pdu) (task : scsi_task) : iscsi_pdu :=
  let cleared := memset pdu.outdata.data 32 0 16
  { pdu with outdata := { pdu.outdata with data := memcpy cleared 32 (task.cdb.take task.cdb_size) } }

/-! ## PDU allocation -/

/-- Function `iscsi_allocate_pdu_with_itt_flags` (pdu.c 28-68).  The first argument tells whether the
`malloc` of the PDU object succeeds, the second is the outcome of the `malloc`
of the header buffer. -/
def iscsi_allocate_pdu_with_itt_flags (oc : iscsi_opcodes) (pdu_ok : Bool)
    (m : Option (Nat → Nat)) (iscsi : iscsi_context)
    (opcode response_opcode itt flags : Nat) : Option iscsi_pdu × Option iscsi_error :=
  if !pdu_ok then (none, some .failed_to_allocate_pdu)
  else
    let size : Int := ISCSI_HEADER_SIZE
    match malloc m size with
    | none => (none, some .failed_to_allocate_pdu_header)
    | some fresh =>
      let data := memset fresh 0 0 size.toNat
      let data := data.set 0 (opcode % 256)
      let data :=
        if opcode = oc.ISCSI_PDU_LOGIN_REQUEST then memcpy data 8 (iscsi.isid.take 6) else data
      let pdu : iscsi_pdu :=
        { flags := 0, itt := 0, response_opcode := response_opcode,
          outdata := { size := size, data := data } }
      let pdu := iscsi_pdu_set_itt pdu itt
      let pdu := { pdu with itt := itt % 4294967296 }
      let pdu := { pdu with flags := flags % 4294967296 }
      (some pdu, none)

/-- Function `iscsi_allocate_pdu` (pdu.c 70-75): the ITT is the session counter, which is then
incremented (`iscsi->itt++` on a `uint32_t`). -/
def iscsi_allocate_pdu (oc : iscsi_opcodes) (pdu_ok : Bool) (m : Option (Nat → Nat))
    (iscsi : iscsi_context) (opcode response_opcode : Nat) :
    (Option iscsi_pdu × Option iscsi_error) × iscsi_context :=
  let itt := iscsi.itt
  let iscsi := { iscsi with itt := (iscsi.itt + 1) % 4294967296 }
  (iscsi_allocate_pdu_with_itt_flags oc pdu_ok m iscsi opcode response_opcode itt 0, iscsi)

/-! ## Data buffer manager -/

/-- Result of `iscsi_add_data`: the return value, the segment after the call
and the diagnostic, if one was recorded. -/
structure add_data_result where
  ret : Int
  data : iscsi_data
  err : Option iscsi_error
deriving DecidableEq, Repr

/-- Function `iscsi_add_data` (pdu.c 102-142).  The argument m is the outcome of the `malloc` of the
new buffer; `dptr` is the slice to append, its length is `dsize`. -/
def iscsi_add_data (m : Option (Nat → Nat)) (data : iscsi_data) (dptr : List Nat)
    (pdualignment : Int) : add_data_result :=
  let dsize : Int := dptr.length
  if dsize = 0 then
    { ret := -1, data := data, err := some .append_zero_size_to_iscsi_data }
  else
    let len := wrap_int32 (data.size + dsize)
    let aligned := if pdualignment ≠ 0 then align4 len else len
    match malloc m aligned with
    | none => { ret := -1, data := data, err := some (.failed_to_allocate_buffer len) }
    | some buf =>
      let buf := if data.size > 0 then memcpy buf 0 (data.data.take data.size.toNat) else buf
      let buf := memcpy buf data.size.toNat dptr
      let buf := if len ≠ aligned then memset buf len.toNat 0 (aligned - len).toNat else buf
      { ret := 0, data := { size := len, data := buf }, err := none }

/-- Result of `iscsi_pdu_add_data`. -/
structure pdu_add_data_result where
  ret : Int
  pdu : Option iscsi_pdu
  err : Option iscsi_error
deriving DecidableEq, Repr

/-- Function `iscsi_pdu_add_data` (pdu.c 144-168); a `NULL` PDU is `none`. -/
def iscsi_pdu_add_data (m : Option (Nat → Nat)) (pdu : Option iscsi_pdu)
    (dptr : List Nat) : pdu_add_data_result :=
  match pdu with
  | none => { ret := -1, pdu := none, err := some .add_data_to_null_pdu }
  | some pdu =>
    let dsize : Int := dptr.length
    if dsize = 0 then
      { ret := -1, pdu := some pdu, err := some .append_zero_size_to_pdu }
    else
      let r := iscsi_add_data m pdu.outdata dptr 1
      if r.ret ≠ 0 then
        { ret := -1, pdu := some { pdu with outdata := r.data },
          err := some .failed_to_add_data_to_pdu_buffer }
      else
        let outdata := r.data
        let outdata :=
          { outdata with
            data := store_be32 outdata.data 4 (to_uint32 (wrap_int32 (outdata.size - ISCSI_HEADER_SIZE))) }
        { ret := 0, pdu := some { pdu with outdata := outdata }, err := none }

/-- Function `iscsi_get_pdu_data_size` (pdu.c 170-179): the low 24 bits of the big-endian word at
offset 4, rounded up to a multiple of 4. -/
def iscsi_get_pdu_data_size (hdr : List Nat) : Int :=
  let size : Int := Int.ofNat (Nat.land (load_be32 hdr 4) 0x00ffffff)
  align4 size

/-- The data-segment-length field of a header: bytes 5..7 read as a
big-endian 24-bit number. -/
def data_segment_length (hdr : List Nat) : Nat :=
  byte_at hdr 5 * 65536 + byte_at hdr 6 * 256 + byte_at hdr 7

/-- A run of `iscsi_pdu_add_data` calls on one PDU, each given the outcome of
its allocation and its payload; `none` as soon as one call does not return 0. -/
def pdu_add_data_all : iscsi_pdu → List (Option (Nat → Nat) × List Nat) → Option iscsi_pdu
  | pdu, [] => some pdu
  | pdu, (m, dptr) :: rest =>
    let r := iscsi_pdu_add_data m (some pdu) dptr
    if r.ret = 0 then
      match r.pdu with
      | some pdu1 => pdu_add_data_all pdu1 rest
      | none => none
    else none

/-! ## Response dispatcher -/

/-- The reply handlers `iscsi_process_pdu` dispatches to, one per `case`. -/
inductive reply_handler where
  | login_reply
  | text_reply
  | logout_reply
  | scsi_reply
  | scsi_data_in
  | nop_out_reply
  | r2t
deriving DecidableEq, Repr

/-- The reply handlers are external to `pdu.c`: each is a function of the
session, the pending PDU and the inbound PDU that returns an `int` (0 for
success).  `iscsi_process_scsi_data_in` also receives the address of
`is_finished`: it is given the current value and returns the value it leaves
there.  The handlers do not touch the list of waiting PDUs, which only the
dispatcher unlinks from. -/
structure reply_handlers where
  iscsi_process_login_reply : iscsi_context → iscsi_pdu → iscsi_in_pdu → Int
  iscsi_process_text_reply : iscsi_context → iscsi_pdu → iscsi_in_pdu → Int
  iscsi_process_logout_reply : iscsi_context → iscsi_pdu → iscsi_in_pdu → Int
  iscsi_process_scsi_reply : iscsi_context → iscsi_pdu → iscsi_in_pdu → Int
  iscsi_process_scsi_data_in : iscsi_context → iscsi_pdu → iscsi_in_pdu → Int → Int × Int
  iscsi_process_nop_out_reply : iscsi_context → iscsi_pdu → iscsi_in_pdu → Int
  iscsi_process_r2t : iscsi_context → iscsi_pdu → iscsi_in_pdu → Int

/-- One invocation of a reply handler: which handler, on which pending PDU,
and the position of that PDU in the list of waiting PDUs. -/
structure handler_call where
  handler : reply_handler
  pos : Nat
  pdu : iscsi_pdu
deriving DecidableEq, Repr

/-- Result of `iscsi_process_pdu`: the return value, the session after the
call, the handler invocations made, and the diagnostic recorded, if any. -/
structure process_result where
  ret : Int
  iscsi : iscsi_context
  calls : List handler_call
  err : Option iscsi_error
deriving DecidableEq, Repr

/-- Modelled from the spec: `SLIST_REMOVE` is a macro of `slist.h`, which is
not part of the sources at hand.  The registry removes by identity: the entry
unlinked is the one the scan stands on, given here by its position; the other
entries keep their order. -/
def SLIST_REMOVE (list : List iscsi_pdu) (pos : Nat) : List iscsi_pdu :=
  list.eraseIdx pos

/-- The expected opcode after the two special cases of `iscsi_process_pdu`:
a data-in answers a PDU that expects a scsi-response, and an R2T answers any
PDU. -/
def expected_response (oc : iscsi_opcodes) (opcode : Nat) (pdu : iscsi_pdu) : Nat :=
  let expected_response := pdu.response_opcode
  let expected_response :=
    if opcode = oc.ISCSI_PDU_DATA_IN ∧ expected_response = oc.ISCSI_PDU_SCSI_RESPONSE then
      oc.ISCSI_PDU_DATA_IN
    else expected_response
  if opcode = oc.ISCSI_PDU_R2T then oc.ISCSI_PDU_R2T else expected_response

/-- The block every `case` runs when its handler returns non-zero: unlink the
PDU, free it, record the diagnostic, return -1. -/
def handler_failed (iscsi : iscsi_context) (pos : Nat) (calls : List handler_call)
    (e : iscsi_error) : process_result :=
  { ret := -1, iscsi := { iscsi with waitpdu := SLIST_REMOVE iscsi.waitpdu pos },
    calls := calls, err := some e }

/-- The end of the loop body, after the `switch`: unlink and free the PDU when
`is_finished` is non-zero, return 0. -/
def handler_done (iscsi : iscsi_context) (pos : Nat) (calls : List handler_call)
    (is_finished : Int) : process_result :=
  { ret := 0,
    iscsi := if is_finished ≠ 0 then { iscsi with waitpdu := SLIST_REMOVE iscsi.waitpdu pos }
             else iscsi,
    calls := calls, err := none }

/-- The body of the loop of `iscsi_process_pdu` for the PDU at position pos
whose ITT equals the inbound one. -/
def process_matched (oc : iscsi_opcodes) (h : reply_handlers) (iscsi : iscsi_context)
    (inp : iscsi_in_pdu) (opcode itt : Nat) (pos : Nat) (pdu : iscsi_pdu) : process_result :=
  let is_finished : Int := 1
  if opcode ≠ expected_response oc opcode pdu then
    { ret := -1, iscsi := iscsi, calls := [],
      err := some (.got_wrong_opcode itt opcode pdu.response_opcode) }
  else if opcode = oc.ISCSI_PDU_LOGIN_RESPONSE then
    let calls := [{ handler := .login_reply, pos := pos, pdu := pdu }]
    if h.iscsi_process_login_reply iscsi pdu inp ≠ 0 then
      handler_failed iscsi pos calls .login_reply_failed
    else handler_done iscsi pos calls is_finished
  else if opcode = oc.ISCSI_PDU_TEXT_RESPONSE then
    let calls := [{ handler := .text_reply, pos := pos, pdu := pdu }]
    if h.iscsi_process_text_reply iscsi pdu inp ≠ 0 then
      handler_failed iscsi pos calls .text_reply_failed
    else handler_done iscsi pos calls is_finished
  else if opcode = oc.ISCSI_PDU_LOGOUT_RESPONSE then
    let calls := [{ handler := .logout_reply, pos := pos, pdu := pdu }]
    if h.iscsi_process_logout_reply iscsi pdu inp ≠ 0 then
      handler_failed iscsi pos calls .logout_reply_failed
    else handler_done iscsi pos calls is_finished
  else if opcode = oc.ISCSI_PDU_SCSI_RESPONSE then
    let calls := [{ handler := .scsi_reply, pos := pos, pdu := pdu }]
    if h.iscsi_process_scsi_reply iscsi pdu inp ≠ 0 then
      handler_failed iscsi pos calls .response_reply_failed
    else handler_done iscsi pos calls is_finished
  else if opcode = oc.ISCSI_PDU_DATA_IN then
    let calls := [{ handler := .scsi_data_in, pos := pos, pdu := pdu }]
    let r := h.iscsi_process_scsi_data_in iscsi pdu inp is_finished
    let is_finished := r.2
    if r.1 ≠ 0 then
      handler_failed iscsi pos calls .data_in_failed
    else handler_done iscsi pos calls is_finished
  else if opcode = oc.ISCSI_PDU_NOP_IN then
    let calls := [{ handler := .nop_out_reply, pos := pos, pdu := pdu }]
    if h.iscsi_process_nop_out_reply iscsi pdu inp ≠ 0 then
      handler_failed iscsi pos calls .nop_in_failed
    else handler_done iscsi pos calls is_finished
  else if opcode = oc.ISCSI_PDU_R2T then
    let calls := [{ handler := .r2t, pos := pos, pdu := pdu }]
    if h.iscsi_process_r2t iscsi pdu inp ≠ 0 then
      handler_failed iscsi pos calls .r2t_failed
    else
      let is_finished : Int := 0
      handler_done iscsi pos calls is_finished
  else
    { ret := -1, iscsi := iscsi, calls := [],
      err := some (.dont_know_how_to_handle_opcode opcode) }

/-- The loop `for (pdu = iscsi->waitpdu; pdu; pdu = pdu->next)` from the PDU at
position pos on: PDUs with another ITT are skipped, the first one with the
inbound ITT is processed and ends the call; the end of the list returns 0. -/
def process_scan (oc : iscsi_opcodes) (h : reply_handlers) (iscsi : iscsi_context)
    (inp : iscsi_in_pdu) (opcode itt : Nat) : List iscsi_pdu → Nat → process_result
  | [], _ => { ret := 0, iscsi := iscsi, calls := [], err := none }
  | pdu :: rest, pos =>
    if pdu.itt ≠ itt then process_scan oc h iscsi inp opcode itt rest (pos + 1)
    else process_matched oc h iscsi inp opcode itt pos pdu

/-- Function `iscsi_process_pdu` (pdu.c 182-309): the header fields are read, an
expanded header is refused, otherwise the list of waiting PDUs is scanned. -/
def iscsi_process_pdu (oc : iscsi_opcodes) (h : reply_handlers) (iscsi : iscsi_context)
    (inp : iscsi_in_pdu) : process_result :=
  let opcode := Nat.land (byte_at inp.hdr 0) 0x3f
  let ahslen := byte_at inp.hdr 4
  let itt := load_be32 inp.hdr 16
  if ahslen ≠ 0 then
    { ret := -1, iscsi := iscsi, calls := [], err := some .cant_handle_expanded_headers }
  else process_scan oc h iscsi inp opcode itt iscsi.waitpdu 0

/-- The `case` label of each reply handler. -/
def reply_handler.case_label (oc : iscsi_opcodes) : reply_handler → Nat
  | .login_reply => oc.ISCSI_PDU_LOGIN_RESPONSE
  | .text_reply => oc.ISCSI_PDU_TEXT_RESPONSE
  | .logout_reply => oc.ISCSI_PDU_LOGOUT_RESPONSE
  | .scsi_reply => oc.ISCSI_PDU_SCSI_RESPONSE
  | .scsi_data_in => oc.ISCSI_PDU_DATA_IN
  | .nop_out_reply => oc.ISCSI_PDU_NOP_IN
  | .r2t => oc.ISCSI_PDU_R2T

/-- The value a reply handler returns when the dispatcher invokes it on a
pending PDU (the data-in handler with `is_finished` preset to 1). -/
def reply_handlers.status (h : reply_handlers) (iscsi : iscsi_context) (pdu : iscsi_pdu)
    (inp : iscsi_in_pdu) : reply_handler → Int
  | .login_reply => h.iscsi_process_login_reply iscsi pdu inp
  | .text_reply => h.iscsi_process_text_reply iscsi pdu inp
  | .logout_reply => h.iscsi_process_logout_reply iscsi pdu inp
  | .scsi_reply => h.iscsi_process_scsi_reply iscsi pdu inp
  | .scsi_data_in => (h.iscsi_process_scsi_data_in iscsi pdu inp 1).1
  | .nop_out_reply => h.iscsi_process_nop_out_reply iscsi pdu inp
  | .r2t => h.iscsi_process_r2t iscsi pdu inp

/-- The value of `is_finished` when the end of the loop body is reached after
the handler returned 0: what `iscsi_process_scsi_data_in` left there (it is
preset to 1), 0 after the R2T `case`, and the preset 1 otherwise. -/
def reply_handlers.is_finished (h : reply_handlers) (iscsi : iscsi_context) (pdu : iscsi_pdu)
    (inp : iscsi_in_pdu) : reply_handler → Int
  | .scsi_data_in => (h.iscsi_process_scsi_data_in iscsi pdu inp 1).2
  | .r2t => 0
  | _ => 1

/-- The diagnostic each `case` records when its handler returns non-zero. -/
def reply_handler.failure (id : reply_handler) : iscsi_error :=
  match id with
  | .login_reply => .login_reply_failed
  | .text_reply => .text_reply_failed
  | .logout_reply => .logout_reply_failed
  | .scsi_reply => .response_reply_failed
  | .scsi_data_in => .data_in_failed
  | .nop_out_reply => .nop_in_failed
  | .r2t => .r2t_failed

/-- The PDU p is the first entry of the list of waiting PDUs whose ITT is itt:
the list is pre, then p, then post, and no entry of pre has that ITT. -/
def first_match (waitpdu : List iscsi_pdu) (itt : Nat) (pre : List iscsi_pdu) (p : iscsi_pdu)
    (post : List iscsi_pdu) : Prop :=
  waitpdu = pre ++ p :: post ∧ p.itt = itt ∧ ∀ q ∈ pre, q.itt ≠ itt

instance (waitpdu : List iscsi_pdu) (itt : Nat) (pre : List iscsi_pdu) (p : iscsi_pdu)
    (post : List iscsi_pdu) : Decidable (first_match waitpdu itt pre p post) := by
  unfold first_match; infer_instance

/-- Handlers that all return the same status; the data-in handler leaves the
given value in `is_finished`. -/
def constant_handlers (status : Int) (finished : Int) : reply_handlers :=
  { iscsi_process_login_reply := fun _ _ _ => status,
    iscsi_process_text_reply := fun _ _ _ => status,
    iscsi_process_logout_reply := fun _ _ _ => status,
    iscsi_process_scsi_reply := fun _ _ _ => status,
    iscsi_process_scsi_data_in := fun _ _ _ _ => (status, finished),
    iscsi_process_nop_out_reply := fun _ _ _ => status,
    iscsi_process_r2t := fun _ _ _ => status }

/-- A 48-byte inbound header with the given first byte and ITT, all other
bytes zero. -/
def inbound_header (byte0 itt : Nat) : iscsi_in_pdu :=
  { hdr := store_be32 ((byte0 % 256) :: List.replicate 47 0) 16 (itt % 4294967296), data := [] }

/-- A pending PDU with the given ITT and expected response opcode, as
`iscsi_allocate_pdu_with_itt_flags` builds it for a non-login opcode 1. -/
def pending_pdu (itt response_opcode : Nat) : iscsi_pdu :=
  { flags := 0, itt := itt % 4294967296, response_opcode := response_opcode,
    outdata := { size := 48, data := store_be32 (1 :: List.replicate 47 0) 16 (itt % 4294967296) } }

/-- A session with three waiting PDUs: ITT 5 expecting a scsi-response, ITT 7
expecting a scsi-response, and a second PDU with ITT 7 expecting a
login-response (opcode values of RFC 3720). -/
def example_session : iscsi_context :=
  { itt := 9, isid := [1, 2, 3, 4, 5, 6],
    waitpdu := [pending_pdu 5 0x21, pending_pdu 7 0x21, pending_pdu 7 0x23] }

/-! ## Runs of allocations and the table of fixed-field setters -/

/-- A run of `iscsi_allocate_pdu` calls on one session, each given the outcomes
of its two allocations, its opcode and its response opcode: the PDUs returned,
in call order, and the session after the last call; `none` as soon as one call
returns no PDU. -/
def allocate_pdu_all (oc : iscsi_opcodes) :
    iscsi_context → List (Bool × Option (Nat → Nat) × Nat × Nat) →
      Option (List iscsi_pdu × iscsi_context)
  | iscsi, [] => some ([], iscsi)
  | iscsi, (pdu_ok, m, opcode, response_opcode) :: rest =>
    match (iscsi_allocate_pdu oc pdu_ok m iscsi opcode response_opcode).1.1 with
    | none => none
    | some pdu =>
      match allocate_pdu_all oc
          (iscsi_allocate_pdu oc pdu_ok m iscsi opcode response_opcode).2 rest with
      | none => none
      | some (pdus, last) => some (pdu :: pdus, last)

/-- The buffer `after` is the buffer `before` with the bytes `field` written at
offset off and nothing else changed: same length, the field at its place, every
byte outside it as before. -/
def overwrites (after before : List Nat) (off : Nat) (field : List Nat) : Prop :=
  after.length = before.length ∧
    (∀ i, i < field.length → byte_at after (off + i) = byte_at field i) ∧
    (∀ i, i < off ∨ off + field.length ≤ i → byte_at after i = byte_at before i)

/-- The setters of `pdu.c` that write one fixed field of the header. -/
inductive header_setter where
  | itt
  | pduflags
  | ttt
  | cmdsn
  | datasn
  | expstatsn
  | bufferoffset
  | lun
  | expxferlen
deriving DecidableEq, Repr

/-- The call of a fixed-field setter with the value v. -/
def header_setter.run (s : header_setter) (pdu : iscsi_pdu) (v : Nat) : iscsi_pdu :=
  match s with
  | .itt => iscsi_pdu_set_itt pdu v
  | .pduflags => iscsi_pdu_set_pduflags pdu v
  | .ttt => iscsi_pdu_set_ttt pdu v
  | .cmdsn => iscsi_pdu_set_cmdsn pdu v
  | .datasn => iscsi_pdu_set_datasn pdu v
  | .expstatsn => iscsi_pdu_set_expstatsn pdu v
  | .bufferoffset => iscsi_pdu_set_bufferoffset pdu v
  | .lun => iscsi_pdu_set_lun pdu v
  | .expxferlen => iscsi_pdu_set_expxferlen pdu v

/-- The header offset a fixed-field setter writes at. -/
def header_setter.offset : header_setter → Nat
  | .itt => 16
  | .pduflags => 1
  | .ttt => 20
  | .cmdsn => 24
  | .datasn => 36
  | .expstatsn => 28
  | .bufferoffset => 40
  | .lun => 9
  | .expxferlen => 20

/-- The number of bytes a fixed-field setter writes. -/
def header_setter.width : header_setter → Nat
  | .pduflags => 1
  | .lun => 1
  | _ => 4

/-- The bytes a fixed-field setter stores for the value v: the big-endian
encoding of the 32-bit value, or its low byte for the two one-byte fields. -/
def header_setter.field (s : header_setter) (v : Nat) : List Nat :=
  match s with
  | .pduflags => [v % 256]
  | .lun => [v % 4294967296 % 256]
  | _ => htonl_bytes (v % 4294967296)

/-! ## Machine integers and memory: lemmas -/

theorem land_mask_eq (x : Nat) (hx : x < 4294967296) :
    Nat.land x 0xfffffffc = x / 4 * 4 := by
  show x &&& 0xfffffffc = x / 4 * 4
  have h1 : (x &&& 0xfffffffc) % 2 = 0 := by
    have := @Nat.and_mod_two_eq_one x 0xfffffffc
    have h2 : ¬ ((x &&& 0xfffffffc) % 2 = 1) := by
      intro hc; have := this.mp hc; omega
    omega
  have h3 : (x &&& 0xfffffffc) / 2 = x / 2 &&& 0x7ffffffe := Nat.and_div_two
  have h4 : ((x &&& 0xfffffffc) / 2) % 2 = 0 := by
    rw [h3]
    have := @Nat.and_mod_two_eq_one (x / 2) 0x7ffffffe
    have h2 : ¬ ((x / 2 &&& 0x7ffffffe) % 2 = 1) := by
      intro hc; have := this.mp hc; omega
    omega
  have h5 : ((x &&& 0xfffffffc) / 2) / 2 = x / 4 := by
    rw [h3, Nat.and_div_two]
    have : (0x7ffffffe : Nat) / 2 = 2 ^ 30 - 1 := by norm_num
    rw [this, Nat.and_pow_two_sub_one_eq_mod]
    omega
  omega

theorem to_uint32_id (x : Int) (h0 : 0 ≤ x) (h1 : x < 4294967296) :
    (to_uint32 x : Int) = x := by
  unfold to_uint32; omega

theorem wrap_int32_id (x : Int) (h0 : -2147483648 ≤ x) (h1 : x ≤ 2147483647) :
    wrap_int32 x = x := by
  unfold wrap_int32 to_uint32
  split <;> omega

theorem align4_eq (x : Int) (h0 : 0 ≤ x) (h1 : x ≤ 2147483644) :
    align4 x = (x + 3) / 4 * 4 := by
  obtain ⟨n, rfl⟩ := Int.eq_ofNat_of_zero_le h0
  have e1 : wrap_int32 ((n : Int) + 3) = ((n + 3 : Nat) : Int) := by
    rw [wrap_int32_id _ (by omega) (by omega)]; push_cast; rfl
  have e2 : to_uint32 ((n + 3 : Nat) : Int) = n + 3 := by
    unfold to_uint32; omega
  unfold align4
  rw [e1, e2, land_mask_eq (n + 3) (by omega)]
  rw [wrap_int32_id _ (by simp only [Int.ofNat_eq_coe]; omega)
    (by simp only [Int.ofNat_eq_coe]; omega)]
  simp only [Int.ofNat_eq_coe]
  push_cast
  omega



theorem memcpy_length (buf : List Nat) (off : Nat) (src : List Nat)
    (h : off + src.length ≤ buf.length) : (memcpy buf off src).length = buf.length := by
  unfold memcpy
  simp only [List.length_append, List.length_take, List.length_drop]
  omega

theorem byte_at_memcpy (buf : List Nat) (off : Nat) (src : List Nat) (i : Nat)
    (h : off ≤ buf.length) :
    byte_at (memcpy buf off src) i =
      if off ≤ i ∧ i < off + src.length then byte_at src (i - off) else byte_at buf i := by
  unfold memcpy byte_at
  simp only [List.getD_eq_getElem?_getD, List.append_assoc]
  by_cases h1 : i < off
  · rw [List.getElem?_append_left (by simp; omega)]
    simp only [List.getElem?_take, h1, if_true]
    rw [if_neg (by omega)]
  · have h1' : off ≤ i := by omega
    rw [List.getElem?_append_right (by simp; omega)]
    have e : (List.take off buf).length = off := by simp; omega
    rw [e]
    by_cases h2 : i < off + src.length
    · rw [List.getElem?_append_left (by omega)]
      simp [h1', h2]
    · rw [List.getElem?_append_right (by omega)]
      simp only [List.getElem?_drop]
      have : off + src.length + (i - off - src.length) = i := by omega
      rw [this]
      simp [h2]

theorem byte_at_memcpy_of_lt (buf : List Nat) (off : Nat) (src : List Nat) (i : Nat)
    (h : off ≤ buf.length) (hi : i < off) : byte_at (memcpy buf off src) i = byte_at buf i := by
  rw [byte_at_memcpy _ _ _ _ h, if_neg (by omega)]

theorem byte_at_memcpy_of_ge (buf : List Nat) (off : Nat) (src : List Nat) (i : Nat)
    (h : off ≤ buf.length) (hi : off + src.length ≤ i) :
    byte_at (memcpy buf off src) i = byte_at buf i := by
  rw [byte_at_memcpy _ _ _ _ h, if_neg (by omega)]

theorem byte_at_memcpy_in (buf : List Nat) (off : Nat) (src : List Nat) (i : Nat)
    (h : off ≤ buf.length) (hi : i < src.length) :
    byte_at (memcpy buf off src) (off + i) = byte_at src i := by
  rw [byte_at_memcpy _ _ _ _ h, if_pos (by omega), Nat.add_sub_cancel_left]

theorem load_store_be32 (buf : List Nat) (off v : Nat) (h : off ≤ buf.length)
    (hv : v < 4294967296) : load_be32 (store_be32 buf off v) off = v := by
  unfold load_be32 store_be32
  rw [byte_at_memcpy _ _ _ _ h, byte_at_memcpy _ _ _ _ h, byte_at_memcpy _ _ _ _ h,
    byte_at_memcpy _ _ _ _ h]
  simp [htonl_bytes, byte_at]
  omega




theorem memcpy_append (pre x src : List Nat) :
    memcpy (pre ++ x) pre.length src = pre ++ src ++ x.drop src.length := by
  unfold memcpy
  rw [List.take_left, ← List.drop_drop, List.drop_left]

theorem malloc_some (junk : Nat → Nat) (n : Int) (h : 0 ≤ n) :
    ∃ buf, malloc (some junk) n = some buf ∧ buf.length = n.toNat := by
  refine ⟨(List.range n.toNat).map (fun i => junk i % 256), ?_, by simp⟩
  unfold malloc
  rw [if_neg (by omega)]
  rfl

theorem malloc_eq_some (m : Option (Nat → Nat)) (n : Int) (buf : List Nat)
    (h : malloc m n = some buf) : 0 ≤ n ∧ buf.length = n.toNat ∧ m.isSome := by
  unfold malloc at h
  split at h
  · simp at h
  · cases m with
    | none => simp at h
    | some junk =>
      simp only [Option.map_some', Option.some.injEq] at h
      subst h
      simp; omega

/-- The buffer `iscsi_add_data` builds in a fresh block: the old logical
content, the new bytes, zero padding. -/
theorem add_data_buffer (buf old dptr : List Nat) (s a : Nat)
    (hs : s ≤ old.length) (ha : s + dptr.length ≤ a) (hb : buf.length = a) :
    memset (memcpy (memcpy buf 0 (old.take s)) s dptr) (s + dptr.length) 0
        (a - (s + dptr.length))
      = old.take s ++ dptr ++ List.replicate (a - (s + dptr.length)) 0 := by
  have hT : (old.take s).length = s := by simp; omega
  have e1 : memcpy buf 0 (old.take s) = old.take s ++ buf.drop s := by
    have := memcpy_append [] buf (old.take s)
    simpa [hT] using this
  have e2 : memcpy (old.take s ++ buf.drop s) s dptr
      = old.take s ++ dptr ++ buf.drop (s + dptr.length) := by
    have := memcpy_append (old.take s) (buf.drop s) dptr
    rw [hT] at this
    rw [this, List.drop_drop]
  rw [e1, e2]
  unfold memset
  have hl : (old.take s ++ dptr).length = s + dptr.length := by simp [hT]
  have := memcpy_append (old.take s ++ dptr) (buf.drop (s + dptr.length))
    (List.replicate (a - (s + dptr.length)) (0 % 256))
  rw [hl] at this
  rw [this]
  simp only [List.length_replicate, List.drop_drop, Nat.zero_mod]
  rw [List.drop_eq_nil_of_le (by omega)]
  simp


theorem iscsi_add_data_success (junk : Nat → Nat) (data : iscsi_data) (dptr : List Nat)
    (hd : dptr ≠ []) (h0 : 0 ≤ data.size) (hcap : data.size ≤ data.data.length)
    (hmax : data.size + dptr.length ≤ 2147483644) :
    iscsi_add_data (some junk) data dptr 1 =
      { ret := 0,
        data :=
          { size := data.size + dptr.length,
            data := data.data.take data.size.toNat ++ dptr ++
              List.replicate
                ((data.size + dptr.length + 3) / 4 * 4 - (data.size + dptr.length)).toNat 0 },
        err := none } := by
  have hpos : 0 < dptr.length := List.length_pos.mpr hd
  have hlen : wrap_int32 (data.size + (dptr.length : Int)) = data.size + dptr.length :=
    wrap_int32_id _ (by omega) (by omega)
  have hal : align4 (data.size + (dptr.length : Int))
      = (data.size + dptr.length + 3) / 4 * 4 := align4_eq _ (by omega) hmax
  obtain ⟨buf, hb, hbl⟩ := malloc_some junk ((data.size + dptr.length + 3) / 4 * 4) (by omega)
  obtain ⟨s, hs⟩ := Int.eq_ofNat_of_zero_le h0
  have hst : data.size.toNat = s := by omega
  have hsl : s ≤ data.data.length := by omega
  have hbuf := add_data_buffer buf data.data dptr s
    ((data.size + dptr.length + 3) / 4 * 4).toNat hsl (by omega) hbl
  have hcpy : (if data.size > 0 then memcpy buf 0 (data.data.take s) else buf)
      = memcpy buf 0 (data.data.take s) := by
    split
    · rfl
    · have : s = 0 := by omega
      subst this
      simp [memcpy]
  unfold iscsi_add_data
  simp only []
  rw [if_neg (by omega), if_pos (by decide), hlen, hal, hb]
  simp only [hst, hcpy]
  congr 2
  have e1 : ((data.size + (dptr.length : Int) + 3) / 4 * 4 - (data.size + dptr.length)).toNat
      = ((data.size + (dptr.length : Int) + 3) / 4 * 4).toNat - (s + dptr.length) := by omega
  have e2 : (data.size + (dptr.length : Int)).toNat = s + dptr.length := by omega
  rw [e1, e2]
  split
  · exact hbuf
  · rename_i hx
    have hz : ((data.size + (dptr.length : Int) + 3) / 4 * 4).toNat - (s + dptr.length) = 0 := by
      simp only [ne_eq, Decidable.not_not] at hx
      omega
    rw [hz] at hbuf ⊢
    rw [← hbuf]
    simp [memset, memcpy]




theorem malloc_none (n : Int) : malloc none n = none := by
  unfold malloc; split <;> rfl

theorem memset_all (buf : List Nat) (n : Nat) (h : buf.length = n) :
    memset buf 0 0 n = List.replicate n 0 := by
  unfold memset
  have := memcpy_append [] buf (List.replicate n (0 % 256))
  simp only [List.length_nil, List.nil_append, List.length_replicate] at this
  rw [this, List.drop_eq_nil_of_le (by omega)]
  simp

/-- What a successful allocation returns: a 48-byte buffer whose logical size
is 48 and whose data-segment-length field is zero. -/
theorem allocate_outdata (oc : iscsi_opcodes) (pdu_ok : Bool) (m : Option (Nat → Nat))
    (iscsi : iscsi_context) (opcode response_opcode itt flags : Nat) (pdu : iscsi_pdu)
    (h : (iscsi_allocate_pdu_with_itt_flags oc pdu_ok m iscsi opcode response_opcode itt flags).1
      = some pdu) :
    pdu.outdata.size = 48 ∧ pdu.outdata.data.length = 48 ∧
      data_segment_length pdu.outdata.data = 0 := by
  unfold iscsi_allocate_pdu_with_itt_flags at h
  cases pdu_ok with
  | false => simp at h
  | true =>
    cases m with
    | none => simp [malloc_none] at h
    | some junk =>
      obtain ⟨buf, hb, hbl⟩ := malloc_some junk (ISCSI_HEADER_SIZE : Int) (by decide)
      simp only [hb, Bool.not_true, Bool.false_eq_true, if_false, Option.some.injEq] at h
      have hz : memset buf 0 0 ((ISCSI_HEADER_SIZE : Int)).toNat = List.replicate 48 0 :=
        memset_all buf 48 (by simpa [ISCSI_HEADER_SIZE] using hbl)
      rw [hz] at h
      subst h
      have hbase : ((List.replicate 48 0).set 0 (opcode % 256)).length = 48 := by simp
      have hisid : 8 + (iscsi.isid.take 6).length
          ≤ ((List.replicate 48 0).set 0 (opcode % 256)).length := by
        rw [hbase]; simp; omega
      have h1 : ∀ b1 : List Nat,
          b1 = (if opcode = oc.ISCSI_PDU_LOGIN_REQUEST then
              memcpy ((List.replicate 48 0).set 0 (opcode % 256)) 8 (iscsi.isid.take 6)
            else (List.replicate 48 0).set 0 (opcode % 256)) →
          b1.length = 48 ∧ byte_at b1 5 = 0 ∧ byte_at b1 6 = 0 ∧ byte_at b1 7 = 0 := by
        intro b1 hb1
        subst hb1
        split
        · rw [memcpy_length _ _ _ hisid, byte_at_memcpy_of_lt _ _ _ _ (by omega) (by omega),
            byte_at_memcpy_of_lt _ _ _ _ (by omega) (by omega),
            byte_at_memcpy_of_lt _ _ _ _ (by omega) (by omega)]
          simp [byte_at, List.replicate]
        · simp [byte_at, List.replicate]
      obtain ⟨hl, h5, h6, h7⟩ := h1 _ rfl
      simp only [iscsi_pdu_set_itt, store_be32, data_segment_length]
      refine ⟨by simp [ISCSI_HEADER_SIZE], ?_, ?_⟩
      · rw [memcpy_length _ _ _ (by rw [hl]; simp [htonl_bytes])]
        exact hl
      · rw [byte_at_memcpy_of_lt _ _ _ _ (by omega) (by omega),
          byte_at_memcpy_of_lt _ _ _ _ (by omega) (by omega),
          byte_at_memcpy_of_lt _ _ _ _ (by omega) (by omega), h5, h6, h7]

/-! ## Data-segment length -/

/-- A call of `iscsi_pdu_add_data` that returns 0 had a non-empty payload and a
successful allocation. -/
theorem pdu_add_data_ret_zero (m : Option (Nat → Nat)) (pdu : iscsi_pdu) (dptr : List Nat)
    (h : (iscsi_pdu_add_data m (some pdu) dptr).ret = 0) :
    dptr ≠ [] ∧ ∃ junk, m = some junk := by
  cases dptr with
  | nil => simp [iscsi_pdu_add_data] at h
  | cons b bs =>
    cases m with
    | none =>
      simp [iscsi_pdu_add_data, iscsi_add_data, malloc_none] at h
      split at h <;> simp at h
    | some junk => exact ⟨by simp, junk, rfl⟩

/-- The PDU after a successful `iscsi_pdu_add_data`. -/
theorem pdu_add_data_success (junk : Nat → Nat) (pdu : iscsi_pdu) (dptr : List Nat)
    (hd : dptr ≠ []) (h0 : 0 ≤ pdu.outdata.size)
    (hcap : pdu.outdata.size ≤ pdu.outdata.data.length)
    (hmax : pdu.outdata.size + dptr.length ≤ 2147483644) :
    iscsi_pdu_add_data (some junk) (some pdu) dptr =
      { ret := 0,
        pdu := some
          { pdu with
            outdata :=
              { size := pdu.outdata.size + dptr.length,
                data := store_be32
                  (pdu.outdata.data.take pdu.outdata.size.toNat ++ dptr ++
                    List.replicate ((pdu.outdata.size + dptr.length + 3) / 4 * 4
                      - (pdu.outdata.size + dptr.length)).toNat 0) 4
                  (to_uint32 (wrap_int32 (pdu.outdata.size + dptr.length - ISCSI_HEADER_SIZE))) } },
        err := none } := by
  have hpos : 0 < dptr.length := List.length_pos.mpr hd
  unfold iscsi_pdu_add_data
  simp only [iscsi_add_data_success junk pdu.outdata dptr hd h0 hcap hmax]
  rw [if_neg (by omega)]
  simp

theorem data_segment_length_store (buf : List Nat) (v : Nat) (h : 8 ≤ buf.length) :
    data_segment_length (store_be32 buf 4 v) = v % 16777216 := by
  unfold data_segment_length store_be32
  have e5 := byte_at_memcpy_in buf 4 (htonl_bytes v) 1 (by omega) (by simp [htonl_bytes])
  have e6 := byte_at_memcpy_in buf 4 (htonl_bytes v) 2 (by omega) (by simp [htonl_bytes])
  have e7 := byte_at_memcpy_in buf 4 (htonl_bytes v) 3 (by omega) (by simp [htonl_bytes])
  simp only [Nat.reduceAdd] at e5 e6 e7
  rw [e5, e6, e7]
  simp [htonl_bytes, byte_at]
  omega

/-- One successful `iscsi_pdu_add_data` on a PDU whose logical size s is at
least the header size and within its buffer: the size grows by the payload
length, stays within the new buffer, and the data-segment-length field holds
the new size minus 48. -/
theorem pdu_add_data_step (m : Option (Nat → Nat)) (pdu pdu1 : iscsi_pdu) (dptr : List Nat)
    (h48 : 48 ≤ pdu.outdata.size) (hcap : pdu.outdata.size ≤ pdu.outdata.data.length)
    (hmax : pdu.outdata.size - 48 + dptr.length < 16777216)
    (hret : (iscsi_pdu_add_data m (some pdu) dptr).ret = 0)
    (hpdu : (iscsi_pdu_add_data m (some pdu) dptr).pdu = some pdu1) :
    pdu1.outdata.size = pdu.outdata.size + dptr.length ∧
      pdu1.outdata.size ≤ pdu1.outdata.data.length ∧
      (data_segment_length pdu1.outdata.data : Int) = pdu1.outdata.size - 48 := by
  obtain ⟨hd, junk, rfl⟩ := pdu_add_data_ret_zero m pdu dptr hret
  rw [pdu_add_data_success junk pdu dptr hd (by omega) hcap (by omega)] at hpdu
  simp only [Option.some.injEq] at hpdu
  subst hpdu
  obtain ⟨s, hs⟩ := Int.eq_ofNat_of_zero_le (show 0 ≤ pdu.outdata.size by omega)
  have hst : pdu.outdata.size.toNat = s := by omega
  have hlen : (pdu.outdata.data.take pdu.outdata.size.toNat ++ dptr ++
      List.replicate ((pdu.outdata.size + dptr.length + 3) / 4 * 4
        - (pdu.outdata.size + dptr.length)).toNat 0).length
      = ((pdu.outdata.size + dptr.length + 3) / 4 * 4).toNat := by
    simp only [List.length_append, List.length_take, List.length_replicate, hst]
    omega
  have hv : to_uint32 (wrap_int32 (pdu.outdata.size + dptr.length - ISCSI_HEADER_SIZE))
      = s + dptr.length - 48 := by
    rw [wrap_int32_id _ (by simp [ISCSI_HEADER_SIZE]; omega) (by simp [ISCSI_HEADER_SIZE]; omega)]
    unfold to_uint32
    simp [ISCSI_HEADER_SIZE]
    omega
  refine ⟨rfl, ?_, ?_⟩
  · show pdu.outdata.size + dptr.length ≤ ((store_be32 _ 4 _).length : Int)
    unfold store_be32
    rw [memcpy_length _ _ _ (by rw [hlen]; simp [htonl_bytes]; omega), hlen]
    omega
  · show ((data_segment_length (store_be32 _ 4 _) : Nat) : Int) = pdu.outdata.size + dptr.length - 48
    rw [data_segment_length_store _ _ (by rw [hlen]; omega), hv]
    omega

/-- Invariant of a run of successful `iscsi_pdu_add_data` calls. -/
theorem pdu_add_data_all_invariant :
    ∀ (calls : List (Option (Nat → Nat) × List Nat)) (pdu pdu1 : iscsi_pdu),
      48 ≤ pdu.outdata.size → pdu.outdata.size ≤ pdu.outdata.data.length →
      (data_segment_length pdu.outdata.data : Int) = pdu.outdata.size - 48 →
      pdu.outdata.size - 48 + ((calls.map (fun c => c.2.length)).sum : Nat) < 16777216 →
      pdu_add_data_all pdu calls = some pdu1 →
      pdu1.outdata.size = pdu.outdata.size + ((calls.map (fun c => c.2.length)).sum : Nat) ∧
        (data_segment_length pdu1.outdata.data : Int) = pdu1.outdata.size - 48 := by
  intro calls
  induction calls with
  | nil =>
    intro pdu pdu1 _ _ hf _ hrun
    simp only [pdu_add_data_all, Option.some.injEq] at hrun
    subst hrun
    simpa using hf
  | cons c rest ih =>
    intro pdu pdu1 h48 hcap _ hmax hrun
    obtain ⟨m, dptr⟩ := c
    simp only [List.map_cons, List.sum_cons, Nat.cast_add] at hmax ⊢
    simp only [pdu_add_data_all] at hrun
    split at hrun
    · rename_i hret
      split at hrun
      · rename_i pdu2 hpdu
        obtain ⟨hs, hc, hf⟩ := pdu_add_data_step m pdu pdu2 dptr h48 hcap (by omega) hret hpdu
        obtain ⟨hs1, hf1⟩ := ih pdu2 pdu1 (by omega) hc hf (by omega) hrun
        exact ⟨by omega, hf1⟩
      · simp at hrun
    · simp at hrun

/-- C1. A PDU produced by `iscsi_allocate_pdu_with_itt_flags` and extended by a
non-empty sequence of successful `iscsi_pdu_add_data` calls whose payload
lengths sum to N < 2^24 has N in its data-segment-length field (bytes 5..7 of
the header, big-endian), and N is `outdata.size - 48`: padding is not
counted.  The sequence may have any length (for the empty one N is 0). -/
theorem data_segment_length_after_appends (oc : iscsi_opcodes) (pdu_ok : Bool)
    (m : Option (Nat → Nat)) (iscsi : iscsi_context) (opcode response_opcode itt flags : Nat)
    (pdu0 pdu : iscsi_pdu) (calls : List (Option (Nat → Nat) × List Nat))
    (halloc : (iscsi_allocate_pdu_with_itt_flags oc pdu_ok m iscsi opcode response_opcode
      itt flags).1 = some pdu0)
    (hrun : pdu_add_data_all pdu0 calls = some pdu)
    (hN : (calls.map (fun c => c.2.length)).sum < 16777216) :
    data_segment_length pdu.outdata.data = (calls.map (fun c => c.2.length)).sum ∧
      pdu.outdata.size - 48 = ((calls.map (fun c => c.2.length)).sum : Nat) := by
  obtain ⟨hs, hl, hf⟩ := allocate_outdata oc pdu_ok m iscsi opcode response_opcode itt flags pdu0 halloc
  obtain ⟨h1, h2⟩ := pdu_add_data_all_invariant calls pdu0 pdu (by omega) (by omega)
    (by rw [hf, hs]; rfl) (by omega) hrun
  constructor <;> omega

set_option maxRecDepth 100000 in
/-- C1, at a concrete input: a SCSI-command PDU with ITT 7 extended by
payloads of 5 and 2 bytes has 7 in its data-segment-length field, while its
buffer was padded to 56 bytes. -/
theorem data_segment_length_after_appends_witness :
    data_segment_length
        [1, 0, 0, 0, 0, 0, 0, 7, 0, 0, 0, 0, 0, 0, 0, 0, 0, 0, 0, 7, 0, 0, 0, 0,
         0, 0, 0, 0, 0, 0, 0, 0, 0, 0, 0, 0, 0, 0, 0, 0, 0, 0, 0, 0, 0, 0, 0, 0,
         1, 2, 3, 4, 5, 6, 7, 0] = 7 ∧
      (55 : Int) - 48 = (7 : Nat) :=
  data_segment_length_after_appends rfc3720_opcodes true (some (fun i => i + 77))
    { itt := 7, isid := [1, 2, 3, 4, 5, 6], waitpdu := [] } 1 0x21 7 0 (pending_pdu 7 0x21)
    { flags := 0, itt := 7, response_opcode := 0x21,
      outdata :=
        { size := 55,
          data :=
            [1, 0, 0, 0, 0, 0, 0, 7, 0, 0, 0, 0, 0, 0, 0, 0, 0, 0, 0, 7, 0, 0, 0, 0,
             0, 0, 0, 0, 0, 0, 0, 0, 0, 0, 0, 0, 0, 0, 0, 0, 0, 0, 0, 0, 0, 0, 0, 0,
             1, 2, 3, 4, 5, 6, 7, 0] } }
    [(some (fun _ => 9), [1, 2, 3, 4, 5]), (some (fun _ => 9), [6, 7])]
    (by decide) (by decide) (by decide)

/-- C2. Round trip of the data-segment length: for L < 2^24, storing L as
`iscsi_pdu_add_data` does (32-bit big-endian at header offset 4) and reading it
back with `iscsi_get_pdu_data_size` gives `(L + 3) & ~3`, which is the smallest
multiple of 4 that is at least L. -/
theorem data_size_round_trip (hdr : List Nat) (L : Nat) (hlen : 8 ≤ hdr.length)
    (hL : L < 16777216) :
    iscsi_get_pdu_data_size (store_be32 hdr 4 L) = Int.ofNat (Nat.land (L + 3) 0xfffffffc) ∧
      iscsi_get_pdu_data_size (store_be32 hdr 4 L) = ((L + 3) / 4 * 4 : Nat) ∧
      4 ∣ (L + 3) / 4 * 4 ∧ L ≤ (L + 3) / 4 * 4 ∧
      ∀ k : Nat, 4 ∣ k → L ≤ k → (L + 3) / 4 * 4 ≤ k := by
  have hload : load_be32 (store_be32 hdr 4 L) 4 = L :=
    load_store_be32 hdr 4 L (by omega) (by omega)
  have hmask : Nat.land L 0x00ffffff = L := by
    have : (0x00ffffff : Nat) = 2 ^ 24 - 1 := by norm_num
    show L &&& 0x00ffffff = L
    rw [this]
    exact Nat.and_pow_two_sub_one_of_lt_two_pow (by omega)
  have hsize : iscsi_get_pdu_data_size (store_be32 hdr 4 L) = ((L + 3) / 4 * 4 : Nat) := by
    unfold iscsi_get_pdu_data_size
    simp only [hload, hmask, Int.ofNat_eq_coe]
    rw [align4_eq _ (by omega) (by omega)]
    push_cast
    omega
  refine ⟨?_, hsize, ⟨(L + 3) / 4, by omega⟩, by omega, ?_⟩
  · rw [hsize, land_mask_eq (L + 3) (by omega)]
    rfl
  · rintro k ⟨q, rfl⟩ hk
    omega

/-- C2, at L = 5 in an all-zero 48-byte header: the size read back is 8. -/
theorem data_size_round_trip_witness :
    iscsi_get_pdu_data_size (store_be32 (List.replicate 48 0) 4 5) = ((5 + 3) / 4 * 4 : Nat) :=
  (data_size_round_trip (List.replicate 48 0) 5 (by decide) (by decide)).2.1

/-- C3. For a command descriptor of n ≤ 16 bytes and a PDU whose buffer holds
the 48-byte header, after `iscsi_pdu_set_cdb` the header bytes 32 .. 32+n-1 are
the descriptor and the bytes from 32+n to 47 are zero, whatever the 16 bytes
held before; the buffer keeps its length and its bytes outside 32..47. -/
theorem set_cdb_writes_descriptor (pdu : iscsi_pdu) (task : scsi_task)
    (hlen : 48 ≤ pdu.outdata.data.length) (hn : task.cdb_size ≤ 16)
    (hcdb : task.cdb_size ≤ task.cdb.length) :
    (∀ i, i < task.cdb_size →
        byte_at (iscsi_pdu_set_cdb pdu task).outdata.data (32 + i) = byte_at task.cdb i) ∧
      (∀ i, task.cdb_size ≤ i → i < 16 →
        byte_at (iscsi_pdu_set_cdb pdu task).outdata.data (32 + i) = 0) ∧
      (iscsi_pdu_set_cdb pdu task).outdata.data.length = pdu.outdata.data.length ∧
      (∀ i, i < 32 ∨ 48 ≤ i →
        byte_at (iscsi_pdu_set_cdb pdu task).outdata.data i = byte_at pdu.outdata.data i) := by
  have hb : (task.cdb.take task.cdb_size).length = task.cdb_size := by simp; omega
  have hc : (memset pdu.outdata.data 32 0 16).length = pdu.outdata.data.length := by
    unfold memset
    exact memcpy_length _ _ _ (by simp; omega)
  unfold iscsi_pdu_set_cdb
  refine ⟨?_, ?_, ?_, ?_⟩
  · intro i hi
    show byte_at (memcpy (memset pdu.outdata.data 32 0 16) 32 (task.cdb.take task.cdb_size))
      (32 + i) = byte_at task.cdb i
    rw [byte_at_memcpy_in _ _ _ _ (by omega) (by omega)]
    simp [byte_at, List.getElem?_take, hi]
  · intro i hi hi16
    show byte_at (memcpy (memset pdu.outdata.data 32 0 16) 32 (task.cdb.take task.cdb_size))
      (32 + i) = 0
    rw [byte_at_memcpy_of_ge _ _ _ _ (by omega) (by omega)]
    unfold memset
    rw [byte_at_memcpy_in _ _ _ _ (by omega) (by simpa using hi16)]
    simp only [byte_at, List.getD_eq_getElem?_getD, List.getElem?_replicate, hi16, if_true,
      Option.getD_some, Nat.zero_mod]
  · show (memcpy (memset pdu.outdata.data 32 0 16) 32 (task.cdb.take task.cdb_size)).length
      = pdu.outdata.data.length
    rw [memcpy_length _ _ _ (by omega), hc]
  · intro i hi
    show byte_at (memcpy (memset pdu.outdata.data 32 0 16) 32 (task.cdb.take task.cdb_size)) i
      = byte_at pdu.outdata.data i
    have hc2 : (memcpy pdu.outdata.data 32 (List.replicate 16 (0 % 256))).length
        = pdu.outdata.data.length := hc
    unfold memset
    rcases hi with hi | hi
    · rw [byte_at_memcpy_of_lt _ _ _ _ (by omega) hi,
        byte_at_memcpy_of_lt _ _ _ _ (by omega) hi]
    · rw [byte_at_memcpy_of_ge _ _ _ _ (by omega) (by omega),
        byte_at_memcpy_of_ge _ _ _ _ (by omega) (by simp; omega)]

/-- C3, at a 6-byte descriptor written over a header whose bytes 32..47 were
all 0xff. -/
theorem set_cdb_writes_descriptor_witness :
    (∀ i, i < 6 →
        byte_at (iscsi_pdu_set_cdb
          { flags := 0, itt := 7, response_opcode := 0x21,
            outdata := { size := 48, data := List.replicate 32 0 ++ List.replicate 16 255 } }
          { cdb := [0x28, 0, 0, 0, 0, 8, 9, 9, 9, 9, 9, 9, 9, 9, 9, 9], cdb_size := 6 }).outdata.data
          (32 + i)
        = byte_at [0x28, 0, 0, 0, 0, 8, 9, 9, 9, 9, 9, 9, 9, 9, 9, 9] i) ∧
      (∀ i, 6 ≤ i → i < 16 →
        byte_at (iscsi_pdu_set_cdb
          { flags := 0, itt := 7, response_opcode := 0x21,
            outdata := { size := 48, data := List.replicate 32 0 ++ List.replicate 16 255 } }
          { cdb := [0x28, 0, 0, 0, 0, 8, 9, 9, 9, 9, 9, 9, 9, 9, 9, 9], cdb_size := 6 }).outdata.data
          (32 + i) = 0) :=
  have h := set_cdb_writes_descriptor
    { flags := 0, itt := 7, response_opcode := 0x21,
      outdata := { size := 48, data := List.replicate 32 0 ++ List.replicate 16 255 } }
    { cdb := [0x28, 0, 0, 0, 0, 8, 9, 9, 9, 9, 9, 9, 9, 9, 9, 9], cdb_size := 6 }
    (by decide) (by decide) (by decide)
  ⟨h.1, h.2.1⟩

/-! ## Response dispatcher -/

theorem process_scan_no_match (oc : iscsi_opcodes) (h : reply_handlers) (iscsi : iscsi_context)
    (inp : iscsi_in_pdu) (opcode itt : Nat) :
    ∀ (l : List iscsi_pdu) (pos : Nat), (∀ q ∈ l, q.itt ≠ itt) →
      process_scan oc h iscsi inp opcode itt l pos
        = { ret := 0, iscsi := iscsi, calls := [], err := none } := by
  intro l
  induction l with
  | nil => intro pos _; rfl
  | cons q rest ih =>
    intro pos hq
    unfold process_scan
    rw [if_pos (hq q (List.mem_cons_self _ _))]
    exact ih (pos + 1) (fun x hx => hq x (List.mem_cons_of_mem _ hx))

theorem process_scan_first_match (oc : iscsi_opcodes) (h : reply_handlers)
    (iscsi : iscsi_context) (inp : iscsi_in_pdu) (opcode itt : Nat) (p : iscsi_pdu)
    (post : List iscsi_pdu) (hp : p.itt = itt) :
    ∀ (pre : List iscsi_pdu) (pos : Nat), (∀ q ∈ pre, q.itt ≠ itt) →
      process_scan oc h iscsi inp opcode itt (pre ++ p :: post) pos
        = process_matched oc h iscsi inp opcode itt (pos + pre.length) p := by
  intro pre
  induction pre with
  | nil =>
    intro pos _
    simp only [List.nil_append, List.length_nil, Nat.add_zero]
    unfold process_scan
    rw [if_neg (by simp [hp])]
  | cons q rest ih =>
    intro pos hq
    simp only [List.cons_append, List.length_cons]
    unfold process_scan
    rw [if_pos (hq q (List.mem_cons_self _ _)),
      ih (pos + 1) (fun x hx => hq x (List.mem_cons_of_mem _ hx))]
    congr 1
    omega

/-- A PDU that expects the inbound opcode is accepted. -/
theorem expected_response_self (oc : iscsi_opcodes) (opcode : Nat) (p : iscsi_pdu)
    (h : p.response_opcode = opcode) : expected_response oc opcode p = opcode := by
  simp only [expected_response]
  split_ifs <;> simp_all

/-- A PDU that expects a scsi-response accepts a data-in. -/
theorem expected_response_data_in (oc : iscsi_opcodes) (p : iscsi_pdu)
    (h : p.response_opcode = oc.ISCSI_PDU_SCSI_RESPONSE) :
    expected_response oc oc.ISCSI_PDU_DATA_IN p = oc.ISCSI_PDU_DATA_IN := by
  simp only [expected_response]
  split_ifs <;> simp_all

/-- Every PDU accepts an R2T. -/
theorem expected_response_r2t (oc : iscsi_opcodes) (p : iscsi_pdu) :
    expected_response oc oc.ISCSI_PDU_R2T p = oc.ISCSI_PDU_R2T := by
  simp [expected_response]

theorem SLIST_REMOVE_first_match (pre : List iscsi_pdu) (p : iscsi_pdu) (post : List iscsi_pdu) :
    SLIST_REMOVE (pre ++ p :: post) pre.length = pre ++ post := by
  unfold SLIST_REMOVE
  induction pre with
  | nil => rfl
  | cons q rest ih => simp [ih]

/-- A list of waiting PDUs that holds a PDU with the given ITT splits at the
first such PDU. -/
theorem exists_first_match (itt : Nat) :
    ∀ l : List iscsi_pdu, (∃ q ∈ l, q.itt = itt) →
      ∃ pre p post, first_match l itt pre p post := by
  intro l
  induction l with
  | nil => rintro ⟨q, hq, _⟩; cases hq
  | cons a rest ih =>
    rintro ⟨q, hq, hitt⟩
    by_cases ha : a.itt = itt
    · exact ⟨[], a, rest, rfl, ha, by simp⟩
    · have hrest : ∃ q ∈ rest, q.itt = itt := by
        rcases List.mem_cons.mp hq with rfl | hmem
        · exact absurd hitt ha
        · exact ⟨q, hmem, hitt⟩
      obtain ⟨pre, p, post, hw, hp, hpre⟩ := ih hrest
      refine ⟨a :: pre, p, post, by rw [hw]; rfl, hp, ?_⟩
      intro x hx
      rcases List.mem_cons.mp hx with rfl | hmem
      · exact ha
      · exact hpre x hmem

/-- With no expanded header, the dispatcher runs the loop body on the first
waiting PDU that has the inbound ITT. -/
theorem process_pdu_first_match (oc : iscsi_opcodes) (h : reply_handlers)
    (iscsi : iscsi_context) (inp : iscsi_in_pdu) (pre post : List iscsi_pdu) (p : iscsi_pdu)
    (hahs : byte_at inp.hdr 4 = 0)
    (hfm : first_match iscsi.waitpdu (load_be32 inp.hdr 16) pre p post) :
    iscsi_process_pdu oc h iscsi inp
      = process_matched oc h iscsi inp (Nat.land (byte_at inp.hdr 0) 0x3f)
          (load_be32 inp.hdr 16) pre.length p := by
  obtain ⟨hw, hp, hpre⟩ := hfm
  unfold iscsi_process_pdu
  simp only [hahs, ne_eq, not_true_eq_false, if_false, hw]
  rw [process_scan_first_match oc h iscsi inp _ _ p post hp pre 0 hpre, Nat.zero_add]

/-- The `switch` of the loop body: when the inbound opcode is the `case` label
of a handler and equals the expected opcode, that handler is invoked once; a
non-zero status takes the failure block, a zero status the end of the body. -/
theorem process_matched_dispatch (oc : iscsi_opcodes) (hd : oc.case_labels_distinct)
    (h : reply_handlers) (iscsi : iscsi_context) (inp : iscsi_in_pdu) (itt pos : Nat)
    (p : iscsi_pdu) (id : reply_handler)
    (hacc : expected_response oc (id.case_label oc) p = id.case_label oc) :
    process_matched oc h iscsi inp (id.case_label oc) itt pos p =
      if h.status iscsi p inp id ≠ 0 then
        handler_failed iscsi pos [{ handler := id, pos := pos, pdu := p }] id.failure
      else
        handler_done iscsi pos [{ handler := id, pos := pos, pdu := p }]
          (h.is_finished iscsi p inp id) := by
  simp only [iscsi_opcodes.case_labels_distinct, List.nodup_cons, List.mem_cons,
    List.mem_singleton, not_or, List.not_mem_nil, not_false_eq_true, List.nodup_nil,
    and_true] at hd
  obtain ⟨⟨h12, h13, h14, h15, h16, h17⟩, ⟨h23, h24, h25, h26, h27⟩, ⟨h34, h35, h36, h37⟩,
    ⟨h45, h46, h47⟩, ⟨h56, h57⟩, h67⟩ := hd
  unfold process_matched
  rw [if_neg (by simp [hacc])]
  cases id <;>
    simp [reply_handler.case_label, reply_handlers.status, reply_handlers.is_finished,
      reply_handler.failure, *, Ne.symm h12, Ne.symm h13, Ne.symm h14, Ne.symm h15,
      Ne.symm h16, Ne.symm h17, Ne.symm h23, Ne.symm h24, Ne.symm h25, Ne.symm h26,
      Ne.symm h27, Ne.symm h34, Ne.symm h35, Ne.symm h36, Ne.symm h37, Ne.symm h45,
      Ne.symm h46, Ne.symm h47, Ne.symm h56, Ne.symm h57, Ne.symm h67]

/-- C4. DATA_IN rewrite rule: when the first waiting PDU with the inbound ITT
expects a scsi-response and the inbound PDU has no expanded header and opcode
DATA_IN, `iscsi_process_pdu` records no wrong-opcode diagnostic, invokes the
data-in handler once, on that PDU, and returns -1 exactly when that handler
returns non-zero (0 otherwise). -/
theorem data_in_accepted_for_scsi_response (oc : iscsi_opcodes) (hd : oc.case_labels_distinct)
    (h : reply_handlers) (iscsi : iscsi_context) (inp : iscsi_in_pdu)
    (pre post : List iscsi_pdu) (p : iscsi_pdu)
    (hahs : byte_at inp.hdr 4 = 0)
    (hop : Nat.land (byte_at inp.hdr 0) 0x3f = oc.ISCSI_PDU_DATA_IN)
    (hfm : first_match iscsi.waitpdu (load_be32 inp.hdr 16) pre p post)
    (hresp : p.response_opcode = oc.ISCSI_PDU_SCSI_RESPONSE) :
    (∀ a b c, (iscsi_process_pdu oc h iscsi inp).err ≠ some (.got_wrong_opcode a b c)) ∧
      (iscsi_process_pdu oc h iscsi inp).calls
        = [{ handler := .scsi_data_in, pos := pre.length, pdu := p }] ∧
      ((iscsi_process_pdu oc h iscsi inp).ret = -1 ↔
        (h.iscsi_process_scsi_data_in iscsi p inp 1).1 ≠ 0) ∧
      ((iscsi_process_pdu oc h iscsi inp).ret = 0 ↔
        (h.iscsi_process_scsi_data_in iscsi p inp 1).1 = 0) := by
  have hacc : expected_response oc (reply_handler.scsi_data_in.case_label oc) p
      = reply_handler.scsi_data_in.case_label oc :=
    expected_response_data_in oc p hresp
  rw [process_pdu_first_match oc h iscsi inp pre post p hahs hfm, hop]
  have := process_matched_dispatch oc hd h iscsi inp (load_be32 inp.hdr 16) pre.length p
    .scsi_data_in hacc
  simp only [reply_handler.case_label] at this
  rw [this]
  by_cases hs : h.status iscsi p inp .scsi_data_in = 0
  · have hs' : (h.iscsi_process_scsi_data_in iscsi p inp 1).1 = 0 := hs
    simp [hs, hs', handler_done]
  · have hs' : (h.iscsi_process_scsi_data_in iscsi p inp 1).1 ≠ 0 := hs
    simp [hs, hs', handler_failed, reply_handler.failure]

/-- C4, in the example session: a DATA_IN with ITT 7 is handed to the data-in
handler on the PDU at position 1, which expects a scsi-response. -/
theorem data_in_accepted_for_scsi_response_witness :
    (iscsi_process_pdu rfc3720_opcodes (constant_handlers 0 1) example_session
        (inbound_header 0x25 7)).calls
      = [{ handler := .scsi_data_in, pos := 1, pdu := pending_pdu 7 0x21 }] :=
  (data_in_accepted_for_scsi_response rfc3720_opcodes (by decide) (constant_handlers 0 1)
    example_session (inbound_header 0x25 7) [pending_pdu 5 0x21] [pending_pdu 7 0x23]
    (pending_pdu 7 0x21) (by decide) (by decide) (by decide) (by decide)).2.1

/-- C5. R2T rule: when the inbound PDU has no expanded header and opcode R2T and
its ITT is that of a waiting PDU, whatever response that PDU expects,
`iscsi_process_pdu` records no wrong-opcode diagnostic and invokes the R2T
handler once, on the first such PDU; when the handler returns 0 the call
returns 0 and the session, its list of waiting PDUs included, is as before. -/
theorem r2t_accepted_keeps_entry (oc : iscsi_opcodes) (hd : oc.case_labels_distinct)
    (h : reply_handlers) (iscsi : iscsi_context) (inp : iscsi_in_pdu)
    (pre post : List iscsi_pdu) (p : iscsi_pdu)
    (hahs : byte_at inp.hdr 4 = 0)
    (hop : Nat.land (byte_at inp.hdr 0) 0x3f = oc.ISCSI_PDU_R2T)
    (hfm : first_match iscsi.waitpdu (load_be32 inp.hdr 16) pre p post) :
    (∀ a b c, (iscsi_process_pdu oc h iscsi inp).err ≠ some (.got_wrong_opcode a b c)) ∧
      (iscsi_process_pdu oc h iscsi inp).calls
        = [{ handler := .r2t, pos := pre.length, pdu := p }] ∧
      (h.iscsi_process_r2t iscsi p inp = 0 →
        (iscsi_process_pdu oc h iscsi inp).ret = 0 ∧
        (iscsi_process_pdu oc h iscsi inp).iscsi = iscsi ∧
        (iscsi_process_pdu oc h iscsi inp).iscsi.waitpdu = pre ++ p :: post) := by
  have hacc : expected_response oc (reply_handler.r2t.case_label oc) p
      = reply_handler.r2t.case_label oc :=
    expected_response_r2t oc p
  rw [process_pdu_first_match oc h iscsi inp pre post p hahs hfm, hop]
  have := process_matched_dispatch oc hd h iscsi inp (load_be32 inp.hdr 16) pre.length p
    .r2t hacc
  simp only [reply_handler.case_label] at this
  rw [this]
  by_cases hs : h.status iscsi p inp .r2t = 0
  · have hs' : h.iscsi_process_r2t iscsi p inp = 0 := hs
    simp [hs, hs', handler_done, reply_handlers.is_finished, hfm.1]
  · have hs' : h.iscsi_process_r2t iscsi p inp ≠ 0 := hs
    simp [hs, hs', handler_failed, reply_handler.failure]

/-- C5, in the example session: an R2T with ITT 7 reaches the PDU at position
1, which expects a scsi-response, and the list of waiting PDUs is unchanged. -/
theorem r2t_accepted_keeps_entry_witness :
    (iscsi_process_pdu rfc3720_opcodes (constant_handlers 0 1) example_session
        (inbound_header 0x31 7)).iscsi = example_session :=
  ((r2t_accepted_keeps_entry rfc3720_opcodes (by decide) (constant_handlers 0 1)
    example_session (inbound_header 0x31 7) [pending_pdu 5 0x21] [pending_pdu 7 0x23]
    (pending_pdu 7 0x21) (by decide) (by decide) (by decide)).2.2 (by decide)).2.1

/-- C6. Stray replies are ignored: when the inbound PDU has no expanded header
and its ITT (big-endian 32 bits at header offset 16) is the ITT of no waiting
PDU, `iscsi_process_pdu` returns 0, invokes no handler, records no diagnostic
and leaves the session, with its list of waiting PDUs, unchanged. -/
theorem stray_reply_ignored (oc : iscsi_opcodes) (h : reply_handlers) (iscsi : iscsi_context)
    (inp : iscsi_in_pdu) (hahs : byte_at inp.hdr 4 = 0)
    (hno : ∀ q ∈ iscsi.waitpdu, q.itt ≠ load_be32 inp.hdr 16) :
    (iscsi_process_pdu oc h iscsi inp).ret = 0 ∧
      (iscsi_process_pdu oc h iscsi inp).calls = [] ∧
      (iscsi_process_pdu oc h iscsi inp).iscsi = iscsi ∧
      (iscsi_process_pdu oc h iscsi inp).err = none := by
  unfold iscsi_process_pdu
  simp only [hahs, ne_eq, not_true_eq_false, if_false]
  rw [process_scan_no_match oc h iscsi inp _ _ iscsi.waitpdu 0 hno]
  exact ⟨rfl, rfl, rfl, rfl⟩

/-- C6, in the example session: a scsi-response with ITT 8, which no waiting
PDU has, changes nothing. -/
theorem stray_reply_ignored_witness :
    (iscsi_process_pdu rfc3720_opcodes (constant_handlers 3 1) example_session
        (inbound_header 0x21 8)).ret = 0 ∧
      (iscsi_process_pdu rfc3720_opcodes (constant_handlers 3 1) example_session
        (inbound_header 0x21 8)).iscsi = example_session :=
  have h := stray_reply_ignored rfc3720_opcodes (constant_handlers 3 1) example_session
    (inbound_header 0x21 8) (by decide) (by decide)
  ⟨h.1, h.2.2.1⟩

/-- C7. Default completion: when the inbound PDU has no expanded header, its
opcode is LOGIN_RESPONSE, TEXT_RESPONSE, LOGOUT_RESPONSE, SCSI_RESPONSE or
NOP_IN, the first waiting PDU with its ITT expects that opcode, and the handler
of that opcode returns 0, `iscsi_process_pdu` returns 0 after one handler call
and the list of waiting PDUs is the previous one without that PDU, the others
in their order; a list holding only that PDU becomes empty. -/
theorem default_completion_removes_entry (oc : iscsi_opcodes) (hd : oc.case_labels_distinct)
    (h : reply_handlers) (iscsi : iscsi_context) (inp : iscsi_in_pdu)
    (pre post : List iscsi_pdu) (p : iscsi_pdu) (id : reply_handler)
    (hid : id = .login_reply ∨ id = .text_reply ∨ id = .logout_reply ∨ id = .scsi_reply ∨
      id = .nop_out_reply)
    (hahs : byte_at inp.hdr 4 = 0)
    (hop : Nat.land (byte_at inp.hdr 0) 0x3f = id.case_label oc)
    (hfm : first_match iscsi.waitpdu (load_be32 inp.hdr 16) pre p post)
    (hresp : p.response_opcode = id.case_label oc)
    (hok : h.status iscsi p inp id = 0) :
    (iscsi_process_pdu oc h iscsi inp).ret = 0 ∧
      (iscsi_process_pdu oc h iscsi inp).calls = [{ handler := id, pos := pre.length, pdu := p }] ∧
      (iscsi_process_pdu oc h iscsi inp).iscsi = { iscsi with waitpdu := pre ++ post } ∧
      (iscsi.waitpdu = [p] → (iscsi_process_pdu oc h iscsi inp).iscsi.waitpdu = []) := by
  have hacc : expected_response oc (id.case_label oc) p = id.case_label oc :=
    expected_response_self oc _ p hresp
  have hfin : h.is_finished iscsi p inp id = 1 := by
    rcases hid with rfl | rfl | rfl | rfl | rfl <;> rfl
  rw [process_pdu_first_match oc h iscsi inp pre post p hahs hfm, hop,
    process_matched_dispatch oc hd h iscsi inp (load_be32 inp.hdr 16) pre.length p id hacc,
    if_neg (by simp [hok])]
  have hrem : SLIST_REMOVE iscsi.waitpdu pre.length = pre ++ post := by
    rw [hfm.1]; exact SLIST_REMOVE_first_match pre p post
  refine ⟨rfl, rfl, ?_, ?_⟩
  · simp [handler_done, hfin, hrem]
  · intro hone
    have hl : (pre ++ p :: post).length = 1 := by rw [← hfm.1, hone]; rfl
    simp only [List.length_append, List.length_cons] at hl
    have hpre : pre = [] := List.length_eq_zero.mp (by omega)
    have hpost : post = [] := List.length_eq_zero.mp (by omega)
    rw [hpre, hpost] at hrem
    simp only [handler_done, hfin, hpre]
    rw [if_pos (by decide)]
    exact hrem

/-- C7, in a session whose only waiting PDU has ITT 7 and expects a
scsi-response: a scsi-response with ITT 7 empties the list. -/
theorem default_completion_removes_entry_witness :
    (iscsi_process_pdu rfc3720_opcodes (constant_handlers 0 1)
        { itt := 8, isid := [1, 2, 3, 4, 5, 6], waitpdu := [pending_pdu 7 0x21] }
        (inbound_header 0x21 7)).iscsi.waitpdu = [] :=
  (default_completion_removes_entry rfc3720_opcodes (by decide) (constant_handlers 0 1)
    { itt := 8, isid := [1, 2, 3, 4, 5, 6], waitpdu := [pending_pdu 7 0x21] }
    (inbound_header 0x21 7) [] [] (pending_pdu 7 0x21) .scsi_reply (by decide) (by decide)
    (by decide) (by decide) (by decide) (by decide)).2.2.2 rfl

/-- C8. Multi-PDU data-in: when the inbound PDU has no expanded header and
opcode DATA_IN, the first waiting PDU with its ITT expects a scsi-response or a
data-in, and the data-in handler, called with `is_finished` preset to 1,
returns 0, `iscsi_process_pdu` returns 0; the PDU is removed from the list of
waiting PDUs if and only if the handler left a non-zero `is_finished`, and with
a zero `is_finished` the session is unchanged. -/
theorem data_in_finished_flag (oc : iscsi_opcodes) (hd : oc.case_labels_distinct)
    (h : reply_handlers) (iscsi : iscsi_context) (inp : iscsi_in_pdu)
    (pre post : List iscsi_pdu) (p : iscsi_pdu)
    (hahs : byte_at inp.hdr 4 = 0)
    (hop : Nat.land (byte_at inp.hdr 0) 0x3f = oc.ISCSI_PDU_DATA_IN)
    (hfm : first_match iscsi.waitpdu (load_be32 inp.hdr 16) pre p post)
    (hresp : p.response_opcode = oc.ISCSI_PDU_SCSI_RESPONSE ∨
      p.response_opcode = oc.ISCSI_PDU_DATA_IN)
    (hok : (h.iscsi_process_scsi_data_in iscsi p inp 1).1 = 0) :
    (iscsi_process_pdu oc h iscsi inp).ret = 0 ∧
      (iscsi_process_pdu oc h iscsi inp).calls
        = [{ handler := .scsi_data_in, pos := pre.length, pdu := p }] ∧
      ((h.iscsi_process_scsi_data_in iscsi p inp 1).2 ≠ 0 →
        (iscsi_process_pdu oc h iscsi inp).iscsi = { iscsi with waitpdu := pre ++ post }) ∧
      ((h.iscsi_process_scsi_data_in iscsi p inp 1).2 = 0 →
        (iscsi_process_pdu oc h iscsi inp).iscsi = iscsi) ∧
      ((iscsi_process_pdu oc h iscsi inp).iscsi.waitpdu = pre ++ post ↔
        (h.iscsi_process_scsi_data_in iscsi p inp 1).2 ≠ 0) := by
  have hacc : expected_response oc (reply_handler.scsi_data_in.case_label oc) p
      = reply_handler.scsi_data_in.case_label oc := by
    rcases hresp with hr | hr
    · exact expected_response_data_in oc p hr
    · exact expected_response_self oc _ p hr
  have hdis := process_matched_dispatch oc hd h iscsi inp (load_be32 inp.hdr 16) pre.length p
    .scsi_data_in hacc
  simp only [reply_handler.case_label] at hdis
  have hs : h.status iscsi p inp .scsi_data_in = 0 := hok
  rw [process_pdu_first_match oc h iscsi inp pre post p hahs hfm, hop, hdis,
    if_neg (by simp [hs])]
  have hrem : SLIST_REMOVE iscsi.waitpdu pre.length = pre ++ post := by
    rw [hfm.1]; exact SLIST_REMOVE_first_match pre p post
  have hne : pre ++ p :: post ≠ pre ++ post := by
    intro hc
    have := congrArg List.length hc
    simp at this
  refine ⟨rfl, rfl, ?_, ?_, ?_⟩
  · intro hf
    simp [handler_done, reply_handlers.is_finished, hf, hrem]
  · intro hf
    simp [handler_done, reply_handlers.is_finished, hf]
  · by_cases hf : (h.iscsi_process_scsi_data_in iscsi p inp 1).2 = 0
    · simp [handler_done, reply_handlers.is_finished, hf, hfm.1, hne]
    · simp [handler_done, reply_handlers.is_finished, hf, hrem]

/-- C8, in the example session: a DATA_IN with ITT 7 whose handler leaves
`is_finished` at 0 changes nothing. -/
theorem data_in_finished_flag_witness :
    (iscsi_process_pdu rfc3720_opcodes (constant_handlers 0 0) example_session
        (inbound_header 0x25 7)).iscsi = example_session :=
  (data_in_finished_flag rfc3720_opcodes (by decide) (constant_handlers 0 0)
    example_session (inbound_header 0x25 7) [pending_pdu 5 0x21] [pending_pdu 7 0x23]
    (pending_pdu 7 0x21) (by decide) (by decide) (by decide) (by decide) (by decide)).2.2.2.1
    (by decide)

/-- C9. Handler failure is fatal for the exchange: for each of the seven
dispatched opcodes, when the inbound PDU (no expanded header) is accepted for
the first waiting PDU with its ITT and the handler of the opcode returns
non-zero, `iscsi_process_pdu` returns -1 and the list of waiting PDUs is the
previous one without that PDU, every other PDU kept in order. -/
theorem handler_failure_removes_entry (oc : iscsi_opcodes) (hd : oc.case_labels_distinct)
    (h : reply_handlers) (iscsi : iscsi_context) (inp : iscsi_in_pdu)
    (pre post : List iscsi_pdu) (p : iscsi_pdu) (id : reply_handler)
    (hahs : byte_at inp.hdr 4 = 0)
    (hop : Nat.land (byte_at inp.hdr 0) 0x3f = id.case_label oc)
    (hfm : first_match iscsi.waitpdu (load_be32 inp.hdr 16) pre p post)
    (hacc : expected_response oc (id.case_label oc) p = id.case_label oc)
    (hfail : h.status iscsi p inp id ≠ 0) :
    (iscsi_process_pdu oc h iscsi inp).ret = -1 ∧
      (iscsi_process_pdu oc h iscsi inp).calls = [{ handler := id, pos := pre.length, pdu := p }] ∧
      (iscsi_process_pdu oc h iscsi inp).iscsi = { iscsi with waitpdu := pre ++ post } ∧
      (iscsi_process_pdu oc h iscsi inp).err = some id.failure := by
  rw [process_pdu_first_match oc h iscsi inp pre post p hahs hfm, hop,
    process_matched_dispatch oc hd h iscsi inp (load_be32 inp.hdr 16) pre.length p id hacc,
    if_pos hfail]
  have hrem : SLIST_REMOVE iscsi.waitpdu pre.length = pre ++ post := by
    rw [hfm.1]; exact SLIST_REMOVE_first_match pre p post
  exact ⟨rfl, rfl, by simp [handler_failed, hrem], rfl⟩

/-- C9, in the example session: an R2T with ITT 7 whose handler returns 3
makes the call return -1 and unlinks the PDU at position 1. -/
theorem handler_failure_removes_entry_witness :
    (iscsi_process_pdu rfc3720_opcodes (constant_handlers 3 1) example_session
        (inbound_header 0x31 7)).ret = -1 ∧
      (iscsi_process_pdu rfc3720_opcodes (constant_handlers 3 1) example_session
        (inbound_header 0x31 7)).iscsi
        = { example_session with waitpdu := [pending_pdu 5 0x21] ++ [pending_pdu 7 0x23] } :=
  have h := handler_failure_removes_entry rfc3720_opcodes (by decide) (constant_handlers 3 1)
    example_session (inbound_header 0x31 7) [pending_pdu 5 0x21] [pending_pdu 7 0x23]
    (pending_pdu 7 0x21) .r2t (by decide) (by decide) (by decide) (by decide) (by decide)
  ⟨h.1, h.2.2.1⟩

/-- C10 fails as stated.  A login-response with ITT 7 arrives while the only
waiting PDU has ITT 7 and expects a scsi-response: the call returns -1 with
the wrong-opcode diagnostic and the matched PDU is still in the list, which is
not the list with that PDU unlinked.  The same holds for opcode 0x3f, which no
`case` handles, when the waiting PDU expects 0x3f. -/
theorem protocol_error_keeps_entry_counterexample :
    ((iscsi_process_pdu rfc3720_opcodes (constant_handlers 0 1)
          { itt := 8, isid := [1, 2, 3, 4, 5, 6], waitpdu := [pending_pdu 7 0x21] }
          (inbound_header 0x23 7)).ret = -1 ∧
      (iscsi_process_pdu rfc3720_opcodes (constant_handlers 0 1)
          { itt := 8, isid := [1, 2, 3, 4, 5, 6], waitpdu := [pending_pdu 7 0x21] }
          (inbound_header 0x23 7)).err = some (.got_wrong_opcode 7 0x23 0x21) ∧
      (iscsi_process_pdu rfc3720_opcodes (constant_handlers 0 1)
          { itt := 8, isid := [1, 2, 3, 4, 5, 6], waitpdu := [pending_pdu 7 0x21] }
          (inbound_header 0x23 7)).iscsi.waitpdu = [pending_pdu 7 0x21] ∧
      (iscsi_process_pdu rfc3720_opcodes (constant_handlers 0 1)
          { itt := 8, isid := [1, 2, 3, 4, 5, 6], waitpdu := [pending_pdu 7 0x21] }
          (inbound_header 0x23 7)).iscsi.waitpdu ≠ SLIST_REMOVE [pending_pdu 7 0x21] 0) ∧
    ((iscsi_process_pdu rfc3720_opcodes (constant_handlers 0 1)
          { itt := 8, isid := [1, 2, 3, 4, 5, 6], waitpdu := [pending_pdu 7 0x3f] }
          (inbound_header 0x3f 7)).ret = -1 ∧
      (iscsi_process_pdu rfc3720_opcodes (constant_handlers 0 1)
          { itt := 8, isid := [1, 2, 3, 4, 5, 6], waitpdu := [pending_pdu 7 0x3f] }
          (inbound_header 0x3f 7)).err = some (.dont_know_how_to_handle_opcode 0x3f) ∧
      (iscsi_process_pdu rfc3720_opcodes (constant_handlers 0 1)
          { itt := 8, isid := [1, 2, 3, 4, 5, 6], waitpdu := [pending_pdu 7 0x3f] }
          (inbound_header 0x3f 7)).iscsi.waitpdu = [pending_pdu 7 0x3f] ∧
      (iscsi_process_pdu rfc3720_opcodes (constant_handlers 0 1)
          { itt := 8, isid := [1, 2, 3, 4, 5, 6], waitpdu := [pending_pdu 7 0x3f] }
          (inbound_header 0x3f 7)).iscsi.waitpdu ≠ SLIST_REMOVE [pending_pdu 7 0x3f] 0) := by
  decide

/-- C10, amended. When `iscsi_process_pdu` fails because the inbound opcode
differs from the expected opcode of the first waiting PDU with the inbound ITT
(after the two special cases), or because that opcode is accepted but is the
label of no `case`, it returns -1 with the matching diagnostic, invokes no
handler, and leaves the session as it was: the matched PDU stays in the list of
waiting PDUs and no other PDU is touched. -/
theorem protocol_error_leaves_registry (oc : iscsi_opcodes) (h : reply_handlers)
    (iscsi : iscsi_context) (inp : iscsi_in_pdu) (pre post : List iscsi_pdu) (p : iscsi_pdu)
    (hahs : byte_at inp.hdr 4 = 0)
    (hfm : first_match iscsi.waitpdu (load_be32 inp.hdr 16) pre p post)
    (herr : Nat.land (byte_at inp.hdr 0) 0x3f
        ≠ expected_response oc (Nat.land (byte_at inp.hdr 0) 0x3f) p ∨
      ∀ id : reply_handler, Nat.land (byte_at inp.hdr 0) 0x3f ≠ id.case_label oc) :
    (iscsi_process_pdu oc h iscsi inp).ret = -1 ∧
      (iscsi_process_pdu oc h iscsi inp).calls = [] ∧
      (iscsi_process_pdu oc h iscsi inp).iscsi = iscsi ∧
      (iscsi_process_pdu oc h iscsi inp).iscsi.waitpdu = pre ++ p :: post ∧
      (iscsi_process_pdu oc h iscsi inp).err =
        some (if Nat.land (byte_at inp.hdr 0) 0x3f
              ≠ expected_response oc (Nat.land (byte_at inp.hdr 0) 0x3f) p then
            .got_wrong_opcode (load_be32 inp.hdr 16) (Nat.land (byte_at inp.hdr 0) 0x3f)
              p.response_opcode
          else .dont_know_how_to_handle_opcode (Nat.land (byte_at inp.hdr 0) 0x3f)) := by
  rw [process_pdu_first_match oc h iscsi inp pre post p hahs hfm]
  unfold process_matched
  by_cases hm : Nat.land (byte_at inp.hdr 0) 0x3f
      ≠ expected_response oc (Nat.land (byte_at inp.hdr 0) 0x3f) p
  · rw [if_pos hm, if_pos hm]
    exact ⟨rfl, rfl, rfl, hfm.1, rfl⟩
  · have hu : ∀ id : reply_handler, Nat.land (byte_at inp.hdr 0) 0x3f ≠ id.case_label oc := by
      rcases herr with herr | herr
      · exact absurd herr hm
      · exact herr
    have h1 := hu .login_reply
    have h2 := hu .text_reply
    have h3 := hu .logout_reply
    have h4 := hu .scsi_reply
    have h5 := hu .scsi_data_in
    have h6 := hu .nop_out_reply
    have h7 := hu .r2t
    simp only [reply_handler.case_label] at h1 h2 h3 h4 h5 h6 h7
    rw [if_neg hm, if_neg h1, if_neg h2, if_neg h3, if_neg h4, if_neg h5, if_neg h6, if_neg h7,
      if_neg hm]
    exact ⟨rfl, rfl, rfl, hfm.1, rfl⟩

/-- C10 amended, in the example session: a login-response with ITT 7 meets the
PDU at position 1, which expects a scsi-response; the call fails and the
session is unchanged. -/
theorem protocol_error_leaves_registry_witness :
    (iscsi_process_pdu rfc3720_opcodes (constant_handlers 0 1) example_session
        (inbound_header 0x23 7)).ret = -1 ∧
      (iscsi_process_pdu rfc3720_opcodes (constant_handlers 0 1) example_session
        (inbound_header 0x23 7)).iscsi = example_session :=
  have h := protocol_error_leaves_registry rfc3720_opcodes (constant_handlers 0 1)
    example_session (inbound_header 0x23 7) [pending_pdu 5 0x21] [pending_pdu 7 0x23]
    (pending_pdu 7 0x21) (by decide) (by decide) (Or.inl (by decide))
  ⟨h.1, h.2.2.1⟩

/-! ## Rejected calls -/

/-- C11. Expanded headers are rejected before any lookup: when header byte 4
(the AHS length) of the inbound PDU is non-zero, `iscsi_process_pdu` returns
-1, invokes no handler and leaves the session, with its list of waiting PDUs,
unchanged, whatever the ITT and opcode of the PDU are. -/
theorem expanded_header_rejected (oc : iscsi_opcodes) (h : reply_handlers)
    (iscsi : iscsi_context) (inp : iscsi_in_pdu) (hahs : byte_at inp.hdr 4 ≠ 0) :
    (iscsi_process_pdu oc h iscsi inp).ret = -1 ∧
      (iscsi_process_pdu oc h iscsi inp).calls = [] ∧
      (iscsi_process_pdu oc h iscsi inp).iscsi = iscsi ∧
      (iscsi_process_pdu oc h iscsi inp).err = some .cant_handle_expanded_headers := by
  unfold iscsi_process_pdu
  simp only [hahs, ne_eq, not_false_eq_true, if_true, and_self]

/-- C11, in the example session: a scsi-response with ITT 7, which the PDU at
position 1 expects, is refused when its AHS length byte is 1. -/
theorem expanded_header_rejected_witness :
    (iscsi_process_pdu rfc3720_opcodes (constant_handlers 0 1) example_session
        { hdr := (inbound_header 0x21 7).hdr.set 4 1, data := [] }).ret = -1 ∧
      (iscsi_process_pdu rfc3720_opcodes (constant_handlers 0 1) example_session
        { hdr := (inbound_header 0x21 7).hdr.set 4 1, data := [] }).iscsi = example_session :=
  have h := expanded_header_rejected rfc3720_opcodes (constant_handlers 0 1) example_session
    { hdr := (inbound_header 0x21 7).hdr.set 4 1, data := [] } (by decide)
  ⟨h.1, h.2.2.1⟩

/-- A failed `iscsi_add_data` leaves the segment as it was. -/
theorem add_data_failure_unchanged (m : Option (Nat → Nat)) (data : iscsi_data)
    (dptr : List Nat) (pdualignment : Int)
    (h : (iscsi_add_data m data dptr pdualignment).ret ≠ 0) :
    (iscsi_add_data m data dptr pdualignment).data = data := by
  unfold iscsi_add_data at h ⊢
  simp only at h ⊢
  split
  · rfl
  · split
    · rfl
    · rename_i hm
      simp only [hm] at h
      rw [if_neg (by assumption)] at h
      exact absurd rfl h

/-- A failed `iscsi_pdu_add_data` leaves the PDU as it was. -/
theorem pdu_add_data_failure_unchanged (m : Option (Nat → Nat)) (pdu : iscsi_pdu)
    (dptr : List Nat) (h : (iscsi_pdu_add_data m (some pdu) dptr).ret ≠ 0) :
    (iscsi_pdu_add_data m (some pdu) dptr).pdu = some pdu := by
  unfold iscsi_pdu_add_data at h ⊢
  simp only at h ⊢
  split
  · rfl
  · split
    · rename_i hr
      rw [add_data_failure_unchanged m pdu.outdata dptr 1 hr]
    · rename_i h0 hr
      rw [if_neg h0, if_neg hr] at h
      exact absurd rfl h

/-- The return value of `iscsi_add_data` when the allocator returns `NULL`. -/
theorem add_data_malloc_null (data : iscsi_data) (dptr : List Nat) (pdualignment : Int) :
    (iscsi_add_data none data dptr pdualignment).ret = -1 := by
  unfold iscsi_add_data
  simp only [malloc_none]
  split <;> rfl

/-! ## Result of an append -/

theorem malloc_negative (m : Option (Nat → Nat)) (n : Int) (h : n < 0) : malloc m n = none := by
  unfold malloc
  rw [if_pos h]

/-- In the last three values of the `int` range the rounding overflows: the
aligned size is negative. -/
theorem align4_overflow (x : Int) (h0 : 2147483645 ≤ x) (h1 : x ≤ 2147483647) :
    align4 x = -2147483648 := by
  obtain ⟨n, rfl⟩ := Int.eq_ofNat_of_zero_le (show 0 ≤ x by omega)
  have e1 : to_uint32 (wrap_int32 ((n : Int) + 3)) = n + 3 := by
    unfold wrap_int32 to_uint32
    split <;> omega
  have e2 : Nat.land (n + 3) 0xfffffffc = 2147483648 := by
    rw [land_mask_eq (n + 3) (by omega)]
    omega
  unfold align4
  rw [e1, e2]
  decide

/-- The segment after a successful `iscsi_add_data` without alignment. -/
theorem iscsi_add_data_success_unaligned (junk : Nat → Nat) (data : iscsi_data)
    (dptr : List Nat) (hd : dptr ≠ []) (h0 : 0 ≤ data.size)
    (hcap : data.size ≤ data.data.length) (hmax : data.size + dptr.length ≤ 2147483647) :
    iscsi_add_data (some junk) data dptr 0 =
      { ret := 0,
        data := { size := data.size + dptr.length,
                  data := data.data.take data.size.toNat ++ dptr },
        err := none } := by
  have hpos : 0 < dptr.length := List.length_pos.mpr hd
  have hlen : wrap_int32 (data.size + (dptr.length : Int)) = data.size + dptr.length :=
    wrap_int32_id _ (by omega) (by omega)
  obtain ⟨buf, hb, hbl⟩ := malloc_some junk (data.size + dptr.length) (by omega)
  obtain ⟨s, hs⟩ := Int.eq_ofNat_of_zero_le h0
  have hst : data.size.toNat = s := by omega
  have hsl : s ≤ data.data.length := by omega
  have hbuf := add_data_buffer buf data.data dptr s (s + dptr.length) hsl (Nat.le_refl _)
    (by omega)
  have hcpy : (if data.size > 0 then memcpy buf 0 (data.data.take s) else buf)
      = memcpy buf 0 (data.data.take s) := by
    split
    · rfl
    · have : s = 0 := by omega
      subst this
      simp [memcpy]
  unfold iscsi_add_data
  simp only []
  rw [if_neg (by omega), if_neg (by decide), hlen, hb]
  simp only [hst, hcpy]
  rw [if_neg (by simp)]
  congr 2
  rw [Nat.sub_self] at hbuf
  simpa [memset, memcpy] using hbuf

/-- An aligned `iscsi_add_data` whose new size lies in the last three values of
the `int` range returns -1. -/
theorem add_data_overflow_fails (m : Option (Nat → Nat)) (data : iscsi_data) (dptr : List Nat)
    (h0 : 2147483645 ≤ data.size + dptr.length) (h1 : data.size + dptr.length ≤ 2147483647) :
    (iscsi_add_data m data dptr 1).ret = -1 := by
  have hlen : wrap_int32 (data.size + (dptr.length : Int)) = data.size + dptr.length :=
    wrap_int32_id _ (by omega) (by omega)
  unfold iscsi_add_data
  simp only []
  split
  · rfl
  · rw [if_pos (by decide), hlen, align4_overflow _ h0 h1, malloc_negative _ _ (by decide)]

/-- The return value of `iscsi_pdu_add_data` when the allocator hands out a
block. -/
theorem pdu_add_data_malloc_some (m : Option (Nat → Nat)) (pdu : iscsi_pdu) (dptr buf : List Nat)
    (hd : dptr ≠ [])
    (hm : malloc m (align4 (wrap_int32 (pdu.outdata.size + dptr.length))) = some buf) :
    (iscsi_pdu_add_data m (some pdu) dptr).ret = 0 := by
  have hpos : 0 < dptr.length := List.length_pos.mpr hd
  have hr : (iscsi_add_data m pdu.outdata dptr 1).ret = 0 := by
    unfold iscsi_add_data
    simp only
    rw [if_neg (by omega), if_pos (by decide), hm]
  unfold iscsi_pdu_add_data
  simp only
  rw [if_neg (by omega), if_neg (by simp [hr])]

/-- C13. Zero-length appends are rejected: with `dsize = 0` both
`iscsi_add_data` and `iscsi_pdu_add_data` (on a PDU or on `NULL`) return -1 and
leave the segment, hence the PDU's buffer, logical size and
data-segment-length field, unchanged.  Conversely, on a PDU, with `dsize > 0`
and an allocator that hands out the requested block, `iscsi_pdu_add_data`
returns 0; the allocator can do so whenever the new size fits an `int`
after rounding. -/
theorem zero_length_append_rejected (m : Option (Nat → Nat)) (data : iscsi_data)
    (pdualignment : Int) (pdu : iscsi_pdu) (dptr : List Nat) (junk : Nat → Nat)
    (hd : dptr ≠ []) :
    ((iscsi_add_data m data [] pdualignment).ret = -1 ∧
      (iscsi_add_data m data [] pdualignment).data = data) ∧
    ((iscsi_pdu_add_data m (some pdu) []).ret = -1 ∧
      (iscsi_pdu_add_data m (some pdu) []).pdu = some pdu) ∧
    ((iscsi_pdu_add_data m none []).ret = -1 ∧ (iscsi_pdu_add_data m none []).pdu = none) ∧
    (∀ buf, malloc m (align4 (wrap_int32 (pdu.outdata.size + dptr.length))) = some buf →
      (iscsi_pdu_add_data m (some pdu) dptr).ret = 0) ∧
    (0 ≤ pdu.outdata.size → pdu.outdata.size ≤ pdu.outdata.data.length →
      pdu.outdata.size + dptr.length ≤ 2147483644 →
      (iscsi_pdu_add_data (some junk) (some pdu) dptr).ret = 0) := by
  refine ⟨⟨rfl, rfl⟩, ⟨rfl, rfl⟩, ⟨rfl, rfl⟩, ?_, ?_⟩
  · intro buf hm
    exact pdu_add_data_malloc_some m pdu dptr buf hd hm
  · intro h0 hcap hmax
    rw [pdu_add_data_success junk pdu dptr hd h0 hcap hmax]

/-- C13, on the PDU with ITT 7 of the example session: an empty payload is
refused and leaves the PDU as it was, a one-byte payload is accepted. -/
theorem zero_length_append_rejected_witness :
    ((iscsi_pdu_add_data (some (fun _ => 9)) (some (pending_pdu 7 0x21)) []).ret = -1 ∧
      (iscsi_pdu_add_data (some (fun _ => 9)) (some (pending_pdu 7 0x21)) []).pdu
        = some (pending_pdu 7 0x21)) ∧
      (iscsi_pdu_add_data (some (fun _ => 9)) (some (pending_pdu 7 0x21)) [0xab]).ret = 0 :=
  have h := zero_length_append_rejected (some (fun _ => 9)) (pending_pdu 7 0x21).outdata 1
    (pending_pdu 7 0x21) [0xab] (fun _ => 9) (by decide)
  ⟨h.2.1, h.2.2.2.2 (by decide) (by decide) (by decide)⟩

/-- C14. Strong exception safety of append: when the allocation inside
`iscsi_add_data` fails, the call returns -1, and every call that does not
return 0 leaves the segment (buffer contents and logical size) exactly as it
was; `iscsi_pdu_add_data` then returns -1 as well and leaves the PDU, with its
data-segment-length field, unchanged. -/
theorem append_allocation_failure (m : Option (Nat → Nat)) (data : iscsi_data)
    (pdualignment : Int) (pdu : iscsi_pdu) (dptr : List Nat) :
    (iscsi_add_data none data dptr pdualignment).ret = -1 ∧
      (iscsi_add_data none data dptr pdualignment).data = data ∧
      ((iscsi_add_data m data dptr pdualignment).ret ≠ 0 →
        (iscsi_add_data m data dptr pdualignment).data = data) ∧
      (iscsi_pdu_add_data none (some pdu) dptr).ret = -1 ∧
      (iscsi_pdu_add_data none (some pdu) dptr).pdu = some pdu ∧
      ((iscsi_add_data m pdu.outdata dptr 1).ret ≠ 0 →
        (iscsi_pdu_add_data m (some pdu) dptr).ret = -1 ∧
        (iscsi_pdu_add_data m (some pdu) dptr).pdu = some pdu) := by
  have h1 := add_data_malloc_null data dptr pdualignment
  have h2 : (iscsi_pdu_add_data none (some pdu) dptr).ret = -1 := by
    unfold iscsi_pdu_add_data
    simp only
    split
    · rfl
    · rw [if_pos (by rw [add_data_malloc_null]; decide)]
  refine ⟨h1, add_data_failure_unchanged none data dptr pdualignment (by rw [h1]; decide),
    add_data_failure_unchanged m data dptr pdualignment, h2,
    pdu_add_data_failure_unchanged none pdu dptr (by rw [h2]; decide), ?_⟩
  intro hf
  have h3 : (iscsi_pdu_add_data m (some pdu) dptr).ret = -1 := by
    unfold iscsi_pdu_add_data
    simp only
    split_ifs <;> rfl
  exact ⟨h3, pdu_add_data_failure_unchanged m pdu dptr (by rw [h3]; decide)⟩

/-- C14, on the PDU with ITT 7 of the example session: a 3-byte append whose
allocation fails returns -1 and the PDU is as before. -/
theorem append_allocation_failure_witness :
    (iscsi_pdu_add_data none (some (pending_pdu 7 0x21)) [1, 2, 3]).ret = -1 ∧
      (iscsi_pdu_add_data none (some (pending_pdu 7 0x21)) [1, 2, 3]).pdu
        = some (pending_pdu 7 0x21) :=
  (append_allocation_failure none (pending_pdu 7 0x21).outdata 1 (pending_pdu 7 0x21)
    [1, 2, 3]).2.2.2.2.2 (by decide)

/-- C12. Result of a successful append: for a segment of logical size s ≥ 0
held in a buffer of at least s bytes and a non-empty slice d with s + |d| in
the range of `int`, an `iscsi_add_data` with alignment that returns 0 leaves
logical size s + |d| and a buffer of `(s + |d| + 3) & 0xfffffffc` bytes, the
next multiple of 4 and at most 3 more than the logical size, holding the first
s bytes of the old buffer, then d, then zero bytes; without alignment the
buffer has exactly s + |d| bytes.  With an allocator that hands out a block the
call returns 0 (with alignment, when the rounded size still fits an `int`). -/
theorem successful_append_result (m : Option (Nat → Nat)) (data : iscsi_data) (dptr : List Nat) (s : Nat)
    (hs : data.size = s) (hcap : s ≤ data.data.length) (hd : dptr ≠ [])
    (hrange : s + dptr.length ≤ 2147483647) :
    ((iscsi_add_data m data dptr 1).ret = 0 →
      (iscsi_add_data m data dptr 1).data.size = ((s + dptr.length : Nat) : Int) ∧
      (iscsi_add_data m data dptr 1).data.data.length
        = Nat.land (s + dptr.length + 3) 0xfffffffc ∧
      (iscsi_add_data m data dptr 1).data.data.length = (s + dptr.length + 3) / 4 * 4 ∧
      s + dptr.length ≤ (iscsi_add_data m data dptr 1).data.data.length ∧
      (iscsi_add_data m data dptr 1).data.data.length ≤ s + dptr.length + 3 ∧
      (iscsi_add_data m data dptr 1).data.data
        = data.data.take s ++ dptr ++
            List.replicate ((s + dptr.length + 3) / 4 * 4 - (s + dptr.length)) 0) ∧
    ((iscsi_add_data m data dptr 0).ret = 0 →
      (iscsi_add_data m data dptr 0).data.size = ((s + dptr.length : Nat) : Int) ∧
      (iscsi_add_data m data dptr 0).data.data.length = s + dptr.length ∧
      (iscsi_add_data m data dptr 0).data.data = data.data.take s ++ dptr) ∧
    (∀ junk, s + dptr.length ≤ 2147483644 → (iscsi_add_data (some junk) data dptr 1).ret = 0) ∧
    (∀ junk, (iscsi_add_data (some junk) data dptr 0).ret = 0) := by
  have hst : data.size.toNat = s := by omega
  have hTl : (data.data.take s).length = s := by simp; omega
  have hal : ∀ junk, s + dptr.length ≤ 2147483644 →
      iscsi_add_data (some junk) data dptr 1 = _ :=
    fun junk hmax => iscsi_add_data_success junk data dptr hd (by omega) (by omega) (by omega)
  have hun : ∀ junk, iscsi_add_data (some junk) data dptr 0 = _ :=
    fun junk => iscsi_add_data_success_unaligned junk data dptr hd (by omega) (by omega)
      (by omega)
  refine ⟨?_, ?_, ?_, ?_⟩
  · intro hret
    cases m with
    | none => rw [add_data_malloc_null] at hret; exact absurd hret (by decide)
    | some junk =>
      by_cases hmax : s + dptr.length ≤ 2147483644
      · have hpad : ((data.size + (dptr.length : Int) + 3) / 4 * 4
            - (data.size + dptr.length)).toNat
            = (s + dptr.length + 3) / 4 * 4 - (s + dptr.length) := by omega
        rw [hal junk hmax]
        simp only [hst, hpad, List.length_append, hTl, List.length_replicate]
        refine ⟨by omega, ?_, by omega, by omega, by omega, trivial⟩
        rw [land_mask_eq _ (by omega)]
        omega
      · rw [add_data_overflow_fails (some junk) data dptr (by omega) (by omega)] at hret
        exact absurd hret (by decide)
  · intro hret
    cases m with
    | none => rw [add_data_malloc_null] at hret; exact absurd hret (by decide)
    | some junk =>
      rw [hun junk]
      simp only [hst, List.length_append, hTl]
      exact ⟨by omega, trivial, trivial⟩
  · intro junk hmax
    rw [hal junk hmax]
  · intro junk
    rw [hun junk]

/-- C12, on a 5-byte segment in an 8-byte buffer: appending 2 bytes gives
logical size 7 in a buffer of 8 bytes ending in one zero byte, and exactly 7
bytes without alignment. -/
theorem successful_append_result_witness :
    (iscsi_add_data (some (fun _ => 0xee)) { size := 5, data := [1, 2, 3, 4, 5, 0, 0, 0] }
        [9, 9] 1).data.data
      = [1, 2, 3, 4, 5, 9, 9, 0] ∧
    (iscsi_add_data (some (fun _ => 0xee)) { size := 5, data := [1, 2, 3, 4, 5, 0, 0, 0] }
        [9, 9] 0).data.data
      = [1, 2, 3, 4, 5, 9, 9] :=
  have h := successful_append_result (some (fun _ => 0xee)) { size := 5, data := [1, 2, 3, 4, 5, 0, 0, 0] }
    [9, 9] 5 (by decide) (by decide) (by decide) (by decide)
  ⟨(h.1 (by decide)).2.2.2.2.2, (h.2.1 (by decide)).2.2⟩

/-- C20. Appends compose as concatenation: for a segment of logical size s held
in a buffer of at least s bytes and non-empty slices a and b, appending a and
then b with `iscsi_add_data` under alignment gives the same result (logical
size, buffer length, buffer contents) as one aligned append of `a ++ b`; the
logical data are the old s bytes, a, then b, so the padding written after a is
overwritten.  After the two appends through `iscsi_pdu_add_data` the
data-segment-length field is the payload the PDU held plus |a| + |b|, that is
|a| + |b| for a PDU that held only its 48-byte header. -/
theorem appends_compose (j1 j2 j3 : Nat → Nat) (data : iscsi_data) (a b : List Nat) (s : Nat)
    (pdu : iscsi_pdu)
    (hs : data.size = s) (hcap : s ≤ data.data.length) (ha : a ≠ []) (hb : b ≠ [])
    (hmax : s + a.length + b.length ≤ 2147483644) :
    iscsi_add_data (some j2) (iscsi_add_data (some j1) data a 1).data b 1
        = iscsi_add_data (some j3) data (a ++ b) 1 ∧
      (iscsi_add_data (some j3) data (a ++ b) 1).ret = 0 ∧
      (iscsi_add_data (some j3) data (a ++ b) 1).data.size = ((s + a.length + b.length : Nat) : Int) ∧
      (iscsi_add_data (some j2) (iscsi_add_data (some j1) data a 1).data b 1).data.data.take
          (s + a.length + b.length)
        = data.data.take s ++ a ++ b ∧
      (48 ≤ pdu.outdata.size → pdu.outdata.size ≤ pdu.outdata.data.length →
        pdu.outdata.size - 48 + a.length + b.length < 16777216 →
        ∃ pdu2, pdu_add_data_all pdu [(some j1, a), (some j2, b)] = some pdu2 ∧
          (data_segment_length pdu2.outdata.data : Int)
            = pdu.outdata.size - 48 + a.length + b.length ∧
          (pdu.outdata.size = 48 →
            data_segment_length pdu2.outdata.data = a.length + b.length)) := by
  have hst : data.size.toNat = s := by omega
  have hTl : (data.data.take s).length = s := by simp; omega
  have hapos : 0 < a.length := List.length_pos.mpr ha
  have hbpos : 0 < b.length := List.length_pos.mpr hb
  have hab : a ++ b ≠ [] := by simp [ha]
  have e1 := iscsi_add_data_success j1 data a ha (by omega) (by omega) (by omega)
  have e3 := iscsi_add_data_success j3 data (a ++ b) hab (by omega) (by omega)
    (by simp only [List.length_append]; push_cast; omega)
  have hpad1 : ((data.size + (a.length : Int) + 3) / 4 * 4 - (data.size + a.length)).toNat
      = (s + a.length + 3) / 4 * 4 - (s + a.length) := by omega
  rw [hst, hpad1] at e1
  have hsz1 : (iscsi_add_data (some j1) data a 1).data.size = ((s + a.length : Nat) : Int) := by
    rw [e1]; push_cast; omega
  have hd1 : (iscsi_add_data (some j1) data a 1).data.data
      = data.data.take s ++ a ++
        List.replicate ((s + a.length + 3) / 4 * 4 - (s + a.length)) 0 := by
    rw [e1]
  have hcap1 : (iscsi_add_data (some j1) data a 1).data.size
      ≤ (iscsi_add_data (some j1) data a 1).data.data.length := by
    rw [hsz1, hd1]
    simp only [List.length_append, hTl, List.length_replicate]
    omega
  have e2 := iscsi_add_data_success j2 (iscsi_add_data (some j1) data a 1).data b hb
    (by omega) hcap1 (by omega)
  have htake : (iscsi_add_data (some j1) data a 1).data.data.take
      (iscsi_add_data (some j1) data a 1).data.size.toNat = data.data.take s ++ a := by
    have : (iscsi_add_data (some j1) data a 1).data.size.toNat
        = (data.data.take s ++ a).length := by
      rw [hsz1, List.length_append, hTl]; omega
    rw [this, hd1, List.take_left]
  have hpad2 : (((iscsi_add_data (some j1) data a 1).data.size + (b.length : Int) + 3) / 4 * 4
        - ((iscsi_add_data (some j1) data a 1).data.size + b.length)).toNat
      = (s + a.length + b.length + 3) / 4 * 4 - (s + a.length + b.length) := by
    rw [hsz1]; omega
  have hpad3 : ((data.size + ((a ++ b).length : Int) + 3) / 4 * 4
        - (data.size + (a ++ b).length)).toNat
      = (s + a.length + b.length + 3) / 4 * 4 - (s + a.length + b.length) := by
    simp only [List.length_append]; omega
  have hsz2 : (iscsi_add_data (some j1) data a 1).data.size + (b.length : Int)
      = data.size + ((a ++ b).length : Int) := by
    rw [hsz1]; simp only [List.length_append]; push_cast; omega
  rw [htake, hpad2, hsz2] at e2
  rw [hst, hpad3] at e3
  have e23 : iscsi_add_data (some j2) (iscsi_add_data (some j1) data a 1).data b 1
      = iscsi_add_data (some j3) data (a ++ b) 1 := by
    rw [e2, e3, List.append_assoc (data.data.take s) a b]
  refine ⟨e23, by rw [e3], by rw [e3]; simp only [List.length_append]; push_cast; omega, ?_, ?_⟩
  · rw [e2]
    have : s + a.length + b.length = (data.data.take s ++ a ++ b).length := by
      rw [List.length_append, List.length_append, hTl]
    rw [this, List.take_left]
  · intro h48 hpcap hplen
    obtain ⟨P1, p1⟩ : ∃ P1, iscsi_pdu_add_data (some j1) (some pdu) a
        = { ret := 0, pdu := some P1, err := none } :=
      ⟨_, pdu_add_data_success j1 pdu a ha (by omega) hpcap (by omega)⟩
    obtain ⟨hs1, hc1, _⟩ := pdu_add_data_step (some j1) pdu P1 a h48 hpcap (by omega)
      (by rw [p1]) (by rw [p1])
    obtain ⟨P2, p2⟩ : ∃ P2, iscsi_pdu_add_data (some j2) (some P1) b
        = { ret := 0, pdu := some P2, err := none } :=
      ⟨_, pdu_add_data_success j2 P1 b hb (by rw [hs1]; omega) hc1 (by rw [hs1]; omega)⟩
    obtain ⟨hs2, _, hf2⟩ := pdu_add_data_step (some j2) P1 P2 b (by rw [hs1]; omega) hc1
      (by rw [hs1]; omega) (by rw [p2]) (by rw [p2])
    refine ⟨P2, ?_, ?_, ?_⟩
    · simp only [pdu_add_data_all, p1, p2, if_true]
    · rw [hf2, hs2, hs1]; omega
    · intro h
      have := hf2
      rw [hs2, hs1, h] at this
      omega

/-- C20, on a 5-byte segment: appending 2 bytes and then 3 bytes gives the
buffer of one 5-byte append, and a header-only PDU then has 5 in its
data-segment-length field. -/
theorem appends_compose_witness :
    iscsi_add_data (some (fun _ => 2))
        (iscsi_add_data (some (fun _ => 1)) { size := 5, data := [1, 2, 3, 4, 5, 0, 0, 0] }
          [9, 9] 1).data [7, 7, 7] 1
      = iscsi_add_data (some (fun _ => 3)) { size := 5, data := [1, 2, 3, 4, 5, 0, 0, 0] }
          ([9, 9] ++ [7, 7, 7]) 1 :=
  (appends_compose (fun _ => 1) (fun _ => 2) (fun _ => 3)
    { size := 5, data := [1, 2, 3, 4, 5, 0, 0, 0] } [9, 9] [7, 7, 7] 5 (pending_pdu 7 0x21)
    (by decide) (by decide) (by decide) (by decide) (by decide)).1

/-! ## Allocation -/

/-- C15. Header produced by allocation: a successful
`iscsi_allocate_pdu_with_itt_flags` returns a PDU whose buffer has exactly 48
bytes: byte 0 is the low 8 bits of the opcode, bytes 8..13 are the session's
ISID when the opcode is LOGIN_REQUEST and zero otherwise, bytes 16..19 are the
ITT in big-endian order, and every other byte is zero.  The attributes `itt`,
`response_opcode` and `flags` are the arguments, and the ITT read back from the
header is the attribute `itt`. -/
theorem allocated_header (oc : iscsi_opcodes) (junk : Nat → Nat) (iscsi : iscsi_context)
    (opcode response_opcode itt flags : Nat) (hisid : iscsi.isid.length = 6)
    (hitt : itt < 4294967296) (hflags : flags < 4294967296) :
    iscsi_allocate_pdu_with_itt_flags oc true (some junk) iscsi opcode response_opcode itt flags
      = (some
          { flags := flags, itt := itt, response_opcode := response_opcode,
            outdata :=
              { size := 48,
                data := [opcode % 256] ++ List.replicate 7 0 ++
                  (if opcode = oc.ISCSI_PDU_LOGIN_REQUEST then iscsi.isid
                   else List.replicate 6 0) ++
                  List.replicate 2 0 ++ htonl_bytes itt ++ List.replicate 28 0 } },
         none) ∧
      ([opcode % 256] ++ List.replicate 7 0 ++
          (if opcode = oc.ISCSI_PDU_LOGIN_REQUEST then iscsi.isid else List.replicate 6 0) ++
          List.replicate 2 0 ++ htonl_bytes itt ++ List.replicate 28 0).length = 48 ∧
      load_be32 ([opcode % 256] ++ List.replicate 7 0 ++
          (if opcode = oc.ISCSI_PDU_LOGIN_REQUEST then iscsi.isid else List.replicate 6 0) ++
          List.replicate 2 0 ++ htonl_bytes itt ++ List.replicate 28 0) 16 = itt := by
  obtain ⟨buf, hb, hbl⟩ := malloc_some junk (ISCSI_HEADER_SIZE : Int) (by decide)
  have hz : memset buf 0 0 ((ISCSI_HEADER_SIZE : Int)).toNat = List.replicate 48 0 :=
    memset_all buf 48 (by simpa [ISCSI_HEADER_SIZE] using hbl)
  have hbase : (List.replicate 48 0).set 0 (opcode % 256)
      = ([opcode % 256] ++ List.replicate 7 0) ++ List.replicate 40 0 := rfl
  have hfield : ∀ X : List Nat, X.length = 6 →
      ([opcode % 256] ++ List.replicate 7 0 ++ X ++ List.replicate 2 0).length = 16 := by
    intro X hX; simp [hX]
  have hX : (if opcode = oc.ISCSI_PDU_LOGIN_REQUEST then iscsi.isid
      else List.replicate 6 0).length = 6 := by
    split
    · exact hisid
    · rfl
  have h1 : (if opcode = oc.ISCSI_PDU_LOGIN_REQUEST then
        memcpy ((List.replicate 48 0).set 0 (opcode % 256)) 8 (iscsi.isid.take 6)
      else (List.replicate 48 0).set 0 (opcode % 256))
      = ([opcode % 256] ++ List.replicate 7 0 ++
          (if opcode = oc.ISCSI_PDU_LOGIN_REQUEST then iscsi.isid else List.replicate 6 0) ++
          List.replicate 2 0) ++ List.replicate 32 0 := by
    rw [hbase]
    split
    · have ht : iscsi.isid.take 6 = iscsi.isid := List.take_of_length_le (by omega)
      have := memcpy_append ([opcode % 256] ++ List.replicate 7 0) (List.replicate 40 0)
        iscsi.isid
      rw [ht]
      simp only [List.length_append, List.length_singleton, List.length_replicate,
        Nat.reduceAdd] at this
      rw [this, hisid]
      simp only [List.append_assoc]
      rfl
    · simp only [List.append_assoc]
      rfl
  have h2 := memcpy_append
    ([opcode % 256] ++ List.replicate 7 0 ++
      (if opcode = oc.ISCSI_PDU_LOGIN_REQUEST then iscsi.isid else List.replicate 6 0) ++
      List.replicate 2 0) (List.replicate 32 0) (htonl_bytes (itt % 4294967296))
  rw [hfield _ hX] at h2
  have hdrop : (List.replicate 32 0).drop (htonl_bytes (itt % 4294967296)).length
      = List.replicate 28 0 := rfl
  rw [hdrop, Nat.mod_eq_of_lt hitt] at h2
  refine ⟨?_, ?_, ?_⟩
  · unfold iscsi_allocate_pdu_with_itt_flags
    simp only [hb, hz, h1, Bool.not_true, Bool.false_eq_true, if_false, iscsi_pdu_set_itt,
      store_be32, Nat.mod_eq_of_lt hitt, Nat.mod_eq_of_lt hflags, h2]
    rfl
  · simp only [List.length_append, hfield _ hX, List.length_replicate]
    rfl
  · rw [← h2]
    exact load_store_be32 _ 16 itt (by rw [List.length_append, hfield _ hX]; omega) hitt

/-- C15, for a login request (opcode 3 in RFC 3720) with ITT 0x01020304 in a
session with ISID 1..6: the 48-byte header. -/
theorem allocated_header_witness :
    iscsi_allocate_pdu_with_itt_flags rfc3720_opcodes true (some (fun i => i + 77))
        { itt := 9, isid := [1, 2, 3, 4, 5, 6], waitpdu := [] } 3 0x23 0x01020304 5
      = (some
          { flags := 5, itt := 0x01020304, response_opcode := 0x23,
            outdata :=
              { size := 48,
                data := [3 % 256] ++ List.replicate 7 0 ++
                  (if 3 = rfc3720_opcodes.ISCSI_PDU_LOGIN_REQUEST then [1, 2, 3, 4, 5, 6]
                   else List.replicate 6 0) ++
                  List.replicate 2 0 ++ htonl_bytes 0x01020304 ++ List.replicate 28 0 } },
         none) :=
  (allocated_header rfc3720_opcodes (fun i => i + 77)
    { itt := 9, isid := [1, 2, 3, 4, 5, 6], waitpdu := [] } 3 0x23 0x01020304 5
    (by decide) (by decide) (by decide)).1

/-- The attributes of a PDU returned by `iscsi_allocate_pdu_with_itt_flags`. -/
theorem allocate_attributes (oc : iscsi_opcodes) (pdu_ok : Bool) (m : Option (Nat → Nat))
    (iscsi : iscsi_context) (opcode response_opcode itt flags : Nat) (pdu : iscsi_pdu)
    (h : (iscsi_allocate_pdu_with_itt_flags oc pdu_ok m iscsi opcode response_opcode itt flags).1
      = some pdu) :
    pdu.itt = itt % 4294967296 ∧ pdu.flags = flags % 4294967296 ∧
      pdu.response_opcode = response_opcode := by
  unfold iscsi_allocate_pdu_with_itt_flags at h
  cases pdu_ok with
  | false => simp at h
  | true =>
    cases m with
    | none => simp [malloc_none] at h
    | some junk =>
      obtain ⟨buf, hb, _⟩ := malloc_some junk (ISCSI_HEADER_SIZE : Int) (by decide)
      simp only [hb, Bool.not_true, Bool.false_eq_true, if_false, Option.some.injEq] at h
      subst h
      exact ⟨rfl, rfl, rfl⟩

/-- The ITT read back from the header of a PDU returned by
`iscsi_allocate_pdu_with_itt_flags`. -/
theorem allocate_header_itt (oc : iscsi_opcodes) (pdu_ok : Bool) (m : Option (Nat → Nat))
    (iscsi : iscsi_context) (opcode response_opcode itt flags : Nat) (pdu : iscsi_pdu)
    (h : (iscsi_allocate_pdu_with_itt_flags oc pdu_ok m iscsi opcode response_opcode itt flags).1
      = some pdu) :
    load_be32 pdu.outdata.data 16 = itt % 4294967296 := by
  unfold iscsi_allocate_pdu_with_itt_flags at h
  cases pdu_ok with
  | false => simp at h
  | true =>
    cases m with
    | none => simp [malloc_none] at h
    | some junk =>
      obtain ⟨buf, hb, hbl⟩ := malloc_some junk (ISCSI_HEADER_SIZE : Int) (by decide)
      simp only [hb, Bool.not_true, Bool.false_eq_true, if_false, Option.some.injEq] at h
      have hz : memset buf 0 0 ((ISCSI_HEADER_SIZE : Int)).toNat = List.replicate 48 0 :=
        memset_all buf 48 (by simpa [ISCSI_HEADER_SIZE] using hbl)
      rw [hz] at h
      subst h
      have hbase : ((List.replicate 48 0).set 0 (opcode % 256)).length = 48 := by simp
      have hl : (if opcode = oc.ISCSI_PDU_LOGIN_REQUEST then
            memcpy ((List.replicate 48 0).set 0 (opcode % 256)) 8 (iscsi.isid.take 6)
          else (List.replicate 48 0).set 0 (opcode % 256)).length = 48 := by
        split
        · rw [memcpy_length _ _ _ (by rw [hbase]; simp; omega), hbase]
        · exact hbase
      exact load_store_be32 _ 16 _ (by rw [hl]; omega) (Nat.mod_lt _ (by decide))

/-- An allocation returns no PDU exactly when one of its two `malloc` calls
fails. -/
theorem allocate_none_iff (oc : iscsi_opcodes) (pdu_ok : Bool) (m : Option (Nat → Nat))
    (iscsi : iscsi_context) (opcode response_opcode itt flags : Nat) :
    (iscsi_allocate_pdu_with_itt_flags oc pdu_ok m iscsi opcode response_opcode itt flags).1
        = none ↔ pdu_ok = false ∨ m = none := by
  unfold iscsi_allocate_pdu_with_itt_flags
  cases pdu_ok with
  | false => simp
  | true =>
    cases m with
    | none => simp [malloc_none]
    | some junk =>
      obtain ⟨buf, hb, _⟩ := malloc_some junk (ISCSI_HEADER_SIZE : Int) (by decide)
      simp [hb]

/-- The ITTs assigned by a run of successful `iscsi_allocate_pdu` calls and the
counter after the run. -/
theorem allocate_pdu_all_itts (oc : iscsi_opcodes) :
    ∀ (calls : List (Bool × Option (Nat → Nat) × Nat × Nat)) (iscsi last : iscsi_context)
      (pdus : List iscsi_pdu),
      allocate_pdu_all oc iscsi calls = some (pdus, last) →
      pdus.map (fun p => p.itt)
          = (List.range calls.length).map (fun i => (iscsi.itt + i) % 4294967296) ∧
        last.itt % 4294967296 = (iscsi.itt + calls.length) % 4294967296 ∧
        last.isid = iscsi.isid ∧ last.waitpdu = iscsi.waitpdu := by
  intro calls
  induction calls with
  | nil =>
    intro iscsi last pdus h
    simp only [allocate_pdu_all, Option.some.injEq, Prod.mk.injEq] at h
    obtain ⟨rfl, rfl⟩ := h
    simp
  | cons c rest ih =>
    intro iscsi last pdus h
    obtain ⟨pdu_ok, m, opcode, response_opcode⟩ := c
    simp only [allocate_pdu_all] at h
    split at h
    · simp at h
    · rename_i pdu hpdu
      split at h
      · simp at h
      · rename_i ps l hrest
        simp only [Option.some.injEq, Prod.mk.injEq] at h
        obtain ⟨rfl, rfl⟩ := h
        obtain ⟨h1, h2, h3, h4⟩ := ih _ _ _ hrest
        have hitt : pdu.itt = iscsi.itt % 4294967296 :=
          (allocate_attributes oc pdu_ok m _ opcode response_opcode iscsi.itt 0 pdu hpdu).1
        have hctr : (iscsi_allocate_pdu oc pdu_ok m iscsi opcode response_opcode).2.itt
            = (iscsi.itt + 1) % 4294967296 := rfl
        refine ⟨?_, ?_, h3, h4⟩
        · simp only [List.map_cons, List.length_cons, List.range_succ_eq_map, h1, hitt,
            List.map_map, Nat.add_zero, hctr]
          congr 1
          apply List.map_congr_left
          intro i _
          simp only [Function.comp]
          omega
        · rw [h2, hctr, List.length_cons]
          omega

/-- C16. ITT assignment by the session counter: a call of `iscsi_allocate_pdu`
that returns a PDU gives it the value c of the counter before the call and
leaves the counter at c + 1 modulo 2^32; k consecutive successful calls assign
the ITTs c, c+1, ..., c+k-1 modulo 2^32, pairwise distinct when k ≤ 2^32. -/
theorem itt_assigned_from_counter (oc : iscsi_opcodes) (iscsi last : iscsi_context)
    (calls : List (Bool × Option (Nat → Nat) × Nat × Nat)) (pdus : List iscsi_pdu)
    (hc : iscsi.itt < 4294967296)
    (hrun : allocate_pdu_all oc iscsi calls = some (pdus, last)) :
    (∀ pdu_ok m opcode response_opcode pdu,
      (iscsi_allocate_pdu oc pdu_ok m iscsi opcode response_opcode).1.1 = some pdu →
      pdu.itt = iscsi.itt ∧ load_be32 pdu.outdata.data 16 = iscsi.itt ∧
      (iscsi_allocate_pdu oc pdu_ok m iscsi opcode response_opcode).2.itt
        = (iscsi.itt + 1) % 4294967296) ∧
    pdus.length = calls.length ∧
    pdus.map (fun p => p.itt)
      = (List.range calls.length).map (fun i => (iscsi.itt + i) % 4294967296) ∧
    last.itt % 4294967296 = (iscsi.itt + calls.length) % 4294967296 ∧
    (calls.length ≤ 4294967296 → (pdus.map (fun p => p.itt)).Nodup) := by
  obtain ⟨h1, h2, _, _⟩ := allocate_pdu_all_itts oc calls iscsi last pdus hrun
  refine ⟨?_, ?_, h1, h2, ?_⟩
  · intro pdu_ok m opcode response_opcode pdu hp
    have ha := (allocate_attributes oc pdu_ok m _ opcode response_opcode iscsi.itt 0 pdu hp).1
    rw [Nat.mod_eq_of_lt hc] at ha
    have hl := allocate_header_itt oc pdu_ok m _ opcode response_opcode iscsi.itt 0 pdu hp
    rw [Nat.mod_eq_of_lt hc] at hl
    exact ⟨ha, hl, rfl⟩
  · have := congrArg List.length h1
    simpa using this
  · intro hk
    rw [h1]
    apply List.Nodup.map_on _ (List.nodup_range _)
    intro i hi j hj hij
    rw [List.mem_range] at hi hj
    omega

/-- C16, from the counter 2^32 - 2: three allocations get the ITTs 2^32 - 2,
2^32 - 1 and 0, and the counter ends at 1. -/
theorem itt_assigned_from_counter_witness :
    [4294967294, 4294967295, 0]
      = (List.range 3).map (fun i => (4294967294 + i) % 4294967296) :=
  (itt_assigned_from_counter rfc3720_opcodes
    { itt := 4294967294, isid := [1, 2, 3, 4, 5, 6], waitpdu := [] }
    { itt := 1, isid := [1, 2, 3, 4, 5, 6], waitpdu := [] }
    [(true, some (fun _ => 5), 1, 0x21), (true, some (fun _ => 5), 3, 0x23),
      (true, some (fun _ => 5), 1, 0x21)]
    [pending_pdu 4294967294 0x21,
      { flags := 0, itt := 4294967295, response_opcode := 0x23,
        outdata :=
          { size := 48,
            data := [3, 0, 0, 0, 0, 0, 0, 0, 1, 2, 3, 4, 5, 6, 0, 0, 255, 255, 255, 255] ++
              List.replicate 28 0 } },
      pending_pdu 0 0x21]
    (by decide) (by decide)).2.2.1

/-- C17 fails as stated.  In a session whose counter is 9, a call of
`iscsi_allocate_pdu` whose first `malloc` fails returns no PDU and leaves the
counter at 10; the same when only the `malloc` of the header buffer fails. -/
theorem allocation_failure_advances_counter_counterexample :
    ((iscsi_allocate_pdu rfc3720_opcodes false (some (fun _ => 0))
        { itt := 9, isid := [1, 2, 3, 4, 5, 6], waitpdu := [] } 1 0x21).1.1 = none ∧
      (iscsi_allocate_pdu rfc3720_opcodes false (some (fun _ => 0))
        { itt := 9, isid := [1, 2, 3, 4, 5, 6], waitpdu := [] } 1 0x21).2.itt = 10 ∧
      (iscsi_allocate_pdu rfc3720_opcodes false (some (fun _ => 0))
        { itt := 9, isid := [1, 2, 3, 4, 5, 6], waitpdu := [] } 1 0x21).2
        ≠ { itt := 9, isid := [1, 2, 3, 4, 5, 6], waitpdu := [] }) ∧
    ((iscsi_allocate_pdu rfc3720_opcodes true none
        { itt := 9, isid := [1, 2, 3, 4, 5, 6], waitpdu := [] } 1 0x21).1.1 = none ∧
      (iscsi_allocate_pdu rfc3720_opcodes true none
        { itt := 9, isid := [1, 2, 3, 4, 5, 6], waitpdu := [] } 1 0x21).2.itt = 10 ∧
      (iscsi_allocate_pdu rfc3720_opcodes true none
        { itt := 9, isid := [1, 2, 3, 4, 5, 6], waitpdu := [] } 1 0x21).2
        ≠ { itt := 9, isid := [1, 2, 3, 4, 5, 6], waitpdu := [] }) := by
  decide

/-- C17, amended. When `iscsi_allocate_pdu` fails because the `malloc` of the
PDU object or of its header buffer fails, it returns no PDU and records the
diagnostic of that allocation; the session is as before the call except for
the ITT counter, which has advanced by one modulo 2^32 (`iscsi->itt++` is
evaluated with the arguments, before any allocation): the ISID and the list of
waiting PDUs are unchanged.  `iscsi_allocate_pdu` returns no PDU only in these
two cases. -/
theorem allocation_failure_effects (oc : iscsi_opcodes) (pdu_ok : Bool)
    (m : Option (Nat → Nat)) (iscsi : iscsi_context) (opcode response_opcode : Nat)
    (hfail : pdu_ok = false ∨ m = none) :
    (iscsi_allocate_pdu oc pdu_ok m iscsi opcode response_opcode).1.1 = none ∧
      (iscsi_allocate_pdu oc pdu_ok m iscsi opcode response_opcode).1.2
        = some (if pdu_ok = false then .failed_to_allocate_pdu
                else .failed_to_allocate_pdu_header) ∧
      (iscsi_allocate_pdu oc pdu_ok m iscsi opcode response_opcode).2
        = { iscsi with itt := (iscsi.itt + 1) % 4294967296 } ∧
      (iscsi_allocate_pdu oc pdu_ok m iscsi opcode response_opcode).2.isid = iscsi.isid ∧
      (iscsi_allocate_pdu oc pdu_ok m iscsi opcode response_opcode).2.waitpdu = iscsi.waitpdu ∧
      (∀ ok2 m2, (iscsi_allocate_pdu oc ok2 m2 iscsi opcode response_opcode).1.1 = none →
        ok2 = false ∨ m2 = none) := by
  have hnone := (allocate_none_iff oc pdu_ok m
    { iscsi with itt := (iscsi.itt + 1) % 4294967296 } opcode response_opcode iscsi.itt 0).mpr
    hfail
  refine ⟨hnone, ?_, rfl, rfl, rfl, ?_⟩
  · show (iscsi_allocate_pdu_with_itt_flags oc pdu_ok m
      { iscsi with itt := (iscsi.itt + 1) % 4294967296 } opcode response_opcode iscsi.itt 0).2
      = _
    unfold iscsi_allocate_pdu_with_itt_flags
    cases pdu_ok with
    | false => simp
    | true =>
      rcases hfail with hf | hf
      · exact absurd hf (by decide)
      · subst hf
        simp [malloc_none]
  · intro ok2 m2 h
    exact (allocate_none_iff oc ok2 m2 { iscsi with itt := (iscsi.itt + 1) % 4294967296 }
      opcode response_opcode iscsi.itt 0).mp h

/-- C17 amended, in a session whose counter is 9: the failed call leaves the
session with counter 10 and nothing else changed. -/
theorem allocation_failure_effects_witness :
    (iscsi_allocate_pdu rfc3720_opcodes true none
        { itt := 9, isid := [1, 2, 3, 4, 5, 6], waitpdu := [pending_pdu 7 0x21] } 1 0x21).2
      = { itt := 10, isid := [1, 2, 3, 4, 5, 6], waitpdu := [pending_pdu 7 0x21] } :=
  (allocation_failure_effects rfc3720_opcodes true none
    { itt := 9, isid := [1, 2, 3, 4, 5, 6], waitpdu := [pending_pdu 7 0x21] } 1 0x21
    (Or.inr rfl)).2.2.1

/-! ## Fixed-field setters -/

theorem set_eq_memcpy (buf : List Nat) (i x : Nat) (h : i < buf.length) :
    buf.set i x = memcpy buf i [x] := by
  unfold memcpy
  rw [List.set_eq_take_append_cons_drop, if_pos h]
  simp

theorem overwrites_memcpy (buf : List Nat) (off : Nat) (field : List Nat)
    (h : off + field.length ≤ buf.length) : overwrites (memcpy buf off field) buf off field := by
  refine ⟨memcpy_length buf off field h, ?_, ?_⟩
  · intro i hi
    exact byte_at_memcpy_in buf off field i (by omega) hi
  · intro i hi
    rcases hi with hi | hi
    · exact byte_at_memcpy_of_lt buf off field i (by omega) hi
    · exact byte_at_memcpy_of_ge buf off field i (by omega) hi

/-- Two buffers of the same length with the same bytes are equal. -/
theorem buffer_ext (l1 l2 : List Nat) (hl : l1.length = l2.length)
    (h : ∀ i, byte_at l1 i = byte_at l2 i) : l1 = l2 := by
  apply List.ext_getElem hl
  intro i h1 h2
  have := h i
  simpa [byte_at, List.getD_eq_getElem?_getD, List.getElem?_eq_getElem h1,
    List.getElem?_eq_getElem h2] using this

/-- Writes to disjoint byte ranges of a buffer commute. -/
theorem memcpy_comm (buf : List Nat) (off1 off2 : Nat) (s1 s2 : List Nat)
    (h12 : off1 + s1.length ≤ off2) (h2 : off2 + s2.length ≤ buf.length) :
    memcpy (memcpy buf off2 s2) off1 s1 = memcpy (memcpy buf off1 s1) off2 s2 := by
  have l1 := memcpy_length buf off1 s1 (by omega)
  have l2 := memcpy_length buf off2 s2 h2
  apply buffer_ext
  · rw [memcpy_length (memcpy buf off2 s2) off1 s1 (by omega),
      memcpy_length (memcpy buf off1 s1) off2 s2 (by omega), l1, l2]
  · intro i
    rw [byte_at_memcpy _ _ _ _ (by omega), byte_at_memcpy _ _ _ _ (by omega),
      byte_at_memcpy _ _ _ _ (by omega), byte_at_memcpy _ _ _ _ (by omega)]
    split_ifs <;> first | rfl | omega

/-- Every fixed-field setter is one write of its field at its offset. -/
theorem header_setter_run (s : header_setter) (pdu : iscsi_pdu) (v : Nat)
    (hlen : 48 ≤ pdu.outdata.data.length) :
    s.run pdu v
      = { pdu with
          outdata :=
            { pdu.outdata with data := memcpy pdu.outdata.data s.offset (s.field v) } } := by
  cases s <;>
    simp only [header_setter.run, header_setter.offset, header_setter.field, iscsi_pdu_set_itt,
      iscsi_pdu_set_pduflags, iscsi_pdu_set_ttt, iscsi_pdu_set_cmdsn, iscsi_pdu_set_datasn,
      iscsi_pdu_set_expstatsn, iscsi_pdu_set_bufferoffset, iscsi_pdu_set_lun,
      iscsi_pdu_set_expxferlen, store_be32]
  · rw [set_eq_memcpy _ _ _ (by omega)]
  · rw [set_eq_memcpy _ _ _ (by omega)]

theorem header_setter_field_length (s : header_setter) (v : Nat) :
    (s.field v).length = s.width := by
  cases s <;> rfl

theorem header_setter_in_header (s : header_setter) : s.offset + s.width ≤ 48 := by
  cases s <;> decide

/-- C18. Fixed-field setters are pure overwrites: on a PDU whose buffer has at
least 48 bytes and for a 32-bit value v, `iscsi_pdu_set_itt` (offset 16),
`iscsi_pdu_set_ttt` and `iscsi_pdu_set_expxferlen` (20), `iscsi_pdu_set_cmdsn`
(24), `iscsi_pdu_set_expstatsn` (28), `iscsi_pdu_set_datasn` (36) and
`iscsi_pdu_set_bufferoffset` (40) make the 4 bytes at their offset the
big-endian encoding of v, `iscsi_pdu_set_pduflags` writes the byte at offset 1
and `iscsi_pdu_set_lun` writes v mod 256 at offset 9; every byte outside the
field, the length of the buffer and the other members of the PDU are
unchanged.  Hence two setters whose fields are disjoint give the same PDU in
either call order. -/
theorem setters_are_overwrites (pdu : iscsi_pdu) (v w : Nat)
    (hlen : 48 ≤ pdu.outdata.data.length) (hv : v < 4294967296) :
    overwrites (iscsi_pdu_set_itt pdu v).outdata.data pdu.outdata.data 16 (htonl_bytes v) ∧
    overwrites (iscsi_pdu_set_ttt pdu v).outdata.data pdu.outdata.data 20 (htonl_bytes v) ∧
    overwrites (iscsi_pdu_set_expxferlen pdu v).outdata.data pdu.outdata.data 20
      (htonl_bytes v) ∧
    overwrites (iscsi_pdu_set_cmdsn pdu v).outdata.data pdu.outdata.data 24 (htonl_bytes v) ∧
    overwrites (iscsi_pdu_set_expstatsn pdu v).outdata.data pdu.outdata.data 28
      (htonl_bytes v) ∧
    overwrites (iscsi_pdu_set_datasn pdu v).outdata.data pdu.outdata.data 36 (htonl_bytes v) ∧
    overwrites (iscsi_pdu_set_bufferoffset pdu v).outdata.data pdu.outdata.data 40
      (htonl_bytes v) ∧
    overwrites (iscsi_pdu_set_pduflags pdu v).outdata.data pdu.outdata.data 1 [v % 256] ∧
    overwrites (iscsi_pdu_set_lun pdu v).outdata.data pdu.outdata.data 9 [v % 256] ∧
    (∀ s : header_setter,
      (s.run pdu v).flags = pdu.flags ∧ (s.run pdu v).itt = pdu.itt ∧
      (s.run pdu v).response_opcode = pdu.response_opcode ∧
      (s.run pdu v).outdata.size = pdu.outdata.size) ∧
    (∀ s t : header_setter,
      s.offset + s.width ≤ t.offset ∨ t.offset + t.width ≤ s.offset →
      s.run (t.run pdu w) v = t.run (s.run pdu v) w) := by
  have hrun : ∀ s : header_setter,
      overwrites (s.run pdu v).outdata.data pdu.outdata.data s.offset (s.field v) := by
    intro s
    rw [header_setter_run s pdu v hlen]
    have := header_setter_in_header s
    exact overwrites_memcpy _ _ _ (by rw [header_setter_field_length]; omega)
  have hmod : v % 4294967296 = v := Nat.mod_eq_of_lt hv
  have h1 := hrun .itt
  have h2 := hrun .ttt
  have h3 := hrun .expxferlen
  have h4 := hrun .cmdsn
  have h5 := hrun .expstatsn
  have h6 := hrun .datasn
  have h7 := hrun .bufferoffset
  have h8 := hrun .pduflags
  have h9 := hrun .lun
  simp only [header_setter.run, header_setter.offset, header_setter.field, hmod]
    at h1 h2 h3 h4 h5 h6 h7 h8 h9
  refine ⟨h1, h2, h3, h4, h5, h6, h7, h8, h9, ?_, ?_⟩
  · intro s
    rw [header_setter_run s pdu v hlen]
    exact ⟨rfl, rfl, rfl, rfl⟩
  · intro s t hst
    have hs := header_setter_in_header s
    have ht := header_setter_in_header t
    have ls := header_setter_field_length s v
    have lt := header_setter_field_length t w
    have hlt : 48 ≤ (t.run pdu w).outdata.data.length := by
      rw [header_setter_run t pdu w hlen]
      show 48 ≤ (memcpy pdu.outdata.data t.offset (t.field w)).length
      rw [memcpy_length _ _ _ (by omega)]
      exact hlen
    have hls : 48 ≤ (s.run pdu v).outdata.data.length := by
      rw [header_setter_run s pdu v hlen]
      show 48 ≤ (memcpy pdu.outdata.data s.offset (s.field v)).length
      rw [memcpy_length _ _ _ (by omega)]
      exact hlen
    rw [header_setter_run s _ v hlt, header_setter_run t _ w hls, header_setter_run t pdu w hlen,
      header_setter_run s pdu v hlen]
    simp only
    congr 2
    rcases hst with hst | hst
    · exact memcpy_comm _ _ _ _ _ (by omega) (by omega)
    · exact (memcpy_comm _ _ _ _ _ (by omega) (by omega)).symm

/-- C18, on the PDU with ITT 7 of the example session: setting the command
sequence number and then the LUN gives the PDU of the other call order. -/
theorem setters_are_overwrites_witness :
    header_setter.cmdsn.run (header_setter.lun.run (pending_pdu 7 0x21) 0x1234) 0xa1b2c3d4
      = header_setter.lun.run (header_setter.cmdsn.run (pending_pdu 7 0x21) 0xa1b2c3d4) 0x1234 :=
  (setters_are_overwrites (pending_pdu 7 0x21) 0xa1b2c3d4 0x1234 (by decide)
    (by decide)).2.2.2.2.2.2.2.2.2.2 .cmdsn .lun (by decide)

/-! ## First match only -/

/-- The result of the dispatcher when the inbound PDU declares an expanded
header. -/
theorem process_pdu_expanded_header (oc : iscsi_opcodes) (h : reply_handlers)
    (iscsi : iscsi_context) (inp : iscsi_in_pdu) (hahs : byte_at inp.hdr 4 ≠ 0) :
    iscsi_process_pdu oc h iscsi inp
      = { ret := -1, iscsi := iscsi, calls := [], err := some .cant_handle_expanded_headers } := by
  unfold iscsi_process_pdu
  simp only [hahs, ne_eq, not_false_eq_true, if_true]

/-- The result of the dispatcher when no waiting PDU has the inbound ITT. -/
theorem process_pdu_no_match (oc : iscsi_opcodes) (h : reply_handlers)
    (iscsi : iscsi_context) (inp : iscsi_in_pdu) (hahs : byte_at inp.hdr 4 = 0)
    (hno : ∀ q ∈ iscsi.waitpdu, q.itt ≠ load_be32 inp.hdr 16) :
    iscsi_process_pdu oc h iscsi inp
      = { ret := 0, iscsi := iscsi, calls := [], err := none } := by
  unfold iscsi_process_pdu
  simp only [hahs, ne_eq, not_true_eq_false, if_false]
  exact process_scan_no_match oc h iscsi inp _ _ iscsi.waitpdu 0 hno

/-- The three ways the loop body ends on a matched PDU: a protocol error
before any handler, the failure block of a `case`, or the end of the body after
a successful handler. -/
theorem process_matched_cases (oc : iscsi_opcodes) (h : reply_handlers) (iscsi : iscsi_context)
    (inp : iscsi_in_pdu) (opcode itt pos : Nat) (p : iscsi_pdu)
    (motive : process_result → Prop)
    (herr : ∀ e, motive { ret := -1, iscsi := iscsi, calls := [], err := some e })
    (hfail : ∀ id e, motive (handler_failed iscsi pos [{ handler := id, pos := pos, pdu := p }] e))
    (hdone : ∀ id f, motive (handler_done iscsi pos [{ handler := id, pos := pos, pdu := p }] f)) :
    motive (process_matched oc h iscsi inp opcode itt pos p) := by
  unfold process_matched
  simp only
  by_cases h0 : opcode ≠ expected_response oc opcode p
  · rw [if_pos h0]; exact herr _
  rw [if_neg h0]
  by_cases h1 : opcode = oc.ISCSI_PDU_LOGIN_RESPONSE
  · rw [if_pos h1]
    by_cases hh : h.iscsi_process_login_reply iscsi p inp ≠ 0
    · rw [if_pos hh]; exact hfail _ _
    · rw [if_neg hh]; exact hdone _ _
  rw [if_neg h1]
  by_cases h2 : opcode = oc.ISCSI_PDU_TEXT_RESPONSE
  · rw [if_pos h2]
    by_cases hh : h.iscsi_process_text_reply iscsi p inp ≠ 0
    · rw [if_pos hh]; exact hfail _ _
    · rw [if_neg hh]; exact hdone _ _
  rw [if_neg h2]
  by_cases h3 : opcode = oc.ISCSI_PDU_LOGOUT_RESPONSE
  · rw [if_pos h3]
    by_cases hh : h.iscsi_process_logout_reply iscsi p inp ≠ 0
    · rw [if_pos hh]; exact hfail _ _
    · rw [if_neg hh]; exact hdone _ _
  rw [if_neg h3]
  by_cases h4 : opcode = oc.ISCSI_PDU_SCSI_RESPONSE
  · rw [if_pos h4]
    by_cases hh : h.iscsi_process_scsi_reply iscsi p inp ≠ 0
    · rw [if_pos hh]; exact hfail _ _
    · rw [if_neg hh]; exact hdone _ _
  rw [if_neg h4]
  by_cases h5 : opcode = oc.ISCSI_PDU_DATA_IN
  · rw [if_pos h5]
    by_cases hh : (h.iscsi_process_scsi_data_in iscsi p inp 1).1 ≠ 0
    · rw [if_pos hh]; exact hfail _ _
    · rw [if_neg hh]; exact hdone _ _
  rw [if_neg h5]
  by_cases h6 : opcode = oc.ISCSI_PDU_NOP_IN
  · rw [if_pos h6]
    by_cases hh : h.iscsi_process_nop_out_reply iscsi p inp ≠ 0
    · rw [if_pos hh]; exact hfail _ _
    · rw [if_neg hh]; exact hdone _ _
  rw [if_neg h6]
  by_cases h7 : opcode = oc.ISCSI_PDU_R2T
  · rw [if_pos h7]
    by_cases hh : h.iscsi_process_r2t iscsi p inp ≠ 0
    · rw [if_pos hh]; exact hfail _ _
    · rw [if_neg hh]; exact hdone _ _
  rw [if_neg h7]
  exact herr _

/-- The loop body on a matched PDU invokes at most one handler, on that PDU,
and either leaves the session as it was or unlinks that PDU. -/
theorem process_matched_shape (oc : iscsi_opcodes) (h : reply_handlers) (iscsi : iscsi_context)
    (inp : iscsi_in_pdu) (opcode itt pos : Nat) (p : iscsi_pdu) :
    ((process_matched oc h iscsi inp opcode itt pos p).calls = [] ∨
      ∃ id, (process_matched oc h iscsi inp opcode itt pos p).calls
        = [{ handler := id, pos := pos, pdu := p }]) ∧
    ((process_matched oc h iscsi inp opcode itt pos p).iscsi = iscsi ∨
      (process_matched oc h iscsi inp opcode itt pos p).iscsi
        = { iscsi with waitpdu := SLIST_REMOVE iscsi.waitpdu pos }) := by
  apply process_matched_cases oc h iscsi inp opcode itt pos p
    (fun r => (r.calls = [] ∨ ∃ id, r.calls = [{ handler := id, pos := pos, pdu := p }]) ∧
      (r.iscsi = iscsi ∨ r.iscsi = { iscsi with waitpdu := SLIST_REMOVE iscsi.waitpdu pos }))
  · intro e
    exact ⟨Or.inl rfl, Or.inl rfl⟩
  · intro id e
    exact ⟨Or.inr ⟨id, rfl⟩, Or.inr rfl⟩
  · intro id f
    refine ⟨Or.inr ⟨id, rfl⟩, ?_⟩
    unfold handler_done
    simp only
    split_ifs
    · exact Or.inr rfl
    · exact Or.inl rfl

/-- C19. Only the first match is processed: whatever the list of waiting PDUs
holds, one call of `iscsi_process_pdu` invokes at most one handler, and only on
the first PDU, in list order, whose ITT is the inbound ITT; the list after the
call is either the list before it or that list without this first matching
PDU.  The PDUs behind the first match, also those with the same ITT, stay in
place, and the outcome of the scan does not depend on them. -/
theorem only_first_match_processed (oc : iscsi_opcodes) (h : reply_handlers)
    (iscsi : iscsi_context) (inp : iscsi_in_pdu) :
    (iscsi_process_pdu oc h iscsi inp).calls.length ≤ 1 ∧
    (∀ c ∈ (iscsi_process_pdu oc h iscsi inp).calls,
      ∃ pre post, first_match iscsi.waitpdu (load_be32 inp.hdr 16) pre c.pdu post ∧
        c.pos = pre.length) ∧
    ((iscsi_process_pdu oc h iscsi inp).iscsi = iscsi ∨
      ∃ pre p post, first_match iscsi.waitpdu (load_be32 inp.hdr 16) pre p post ∧
        (iscsi_process_pdu oc h iscsi inp).iscsi = { iscsi with waitpdu := pre ++ post }) ∧
    (∀ pre p post post', first_match iscsi.waitpdu (load_be32 inp.hdr 16) pre p post →
      process_scan oc h iscsi inp (Nat.land (byte_at inp.hdr 0) 0x3f) (load_be32 inp.hdr 16)
          (pre ++ p :: post') 0
        = process_scan oc h iscsi inp (Nat.land (byte_at inp.hdr 0) 0x3f)
            (load_be32 inp.hdr 16) iscsi.waitpdu 0) := by
  have hlast : ∀ pre p post post',
      first_match iscsi.waitpdu (load_be32 inp.hdr 16) pre p post →
      process_scan oc h iscsi inp (Nat.land (byte_at inp.hdr 0) 0x3f) (load_be32 inp.hdr 16)
          (pre ++ p :: post') 0
        = process_scan oc h iscsi inp (Nat.land (byte_at inp.hdr 0) 0x3f)
            (load_be32 inp.hdr 16) iscsi.waitpdu 0 := by
    intro pre p post post' hfm
    obtain ⟨hw, hp, hpre⟩ := hfm
    rw [hw, process_scan_first_match oc h iscsi inp _ _ p post' hp pre 0 hpre,
      process_scan_first_match oc h iscsi inp _ _ p post hp pre 0 hpre]
  by_cases hahs : byte_at inp.hdr 4 = 0
  · by_cases hex : ∃ q ∈ iscsi.waitpdu, q.itt = load_be32 inp.hdr 16
    · obtain ⟨pre, p, post, hfm⟩ := exists_first_match _ _ hex
      rw [process_pdu_first_match oc h iscsi inp pre post p hahs hfm]
      obtain ⟨hcalls, hreg⟩ := process_matched_shape oc h iscsi inp
        (Nat.land (byte_at inp.hdr 0) 0x3f) (load_be32 inp.hdr 16) pre.length p
      have hrem : SLIST_REMOVE iscsi.waitpdu pre.length = pre ++ post := by
        rw [hfm.1]; exact SLIST_REMOVE_first_match pre p post
      refine ⟨?_, ?_, ?_, hlast⟩
      · rcases hcalls with hc | ⟨id, hc⟩ <;> rw [hc] <;> simp
      · intro c hc
        rcases hcalls with h0 | ⟨id, h1⟩
        · rw [h0] at hc; cases hc
        · rw [h1] at hc
          simp only [List.mem_singleton] at hc
          subst hc
          exact ⟨pre, post, hfm, rfl⟩
      · rcases hreg with hr | hr
        · exact Or.inl hr
        · exact Or.inr ⟨pre, p, post, hfm, by rw [hr, hrem]⟩
    · have hno : ∀ q ∈ iscsi.waitpdu, q.itt ≠ load_be32 inp.hdr 16 :=
        fun q hq hitt => hex ⟨q, hq, hitt⟩
      rw [process_pdu_no_match oc h iscsi inp hahs hno]
      exact ⟨by simp, by simp, Or.inl rfl, hlast⟩
  · rw [process_pdu_expanded_header oc h iscsi inp hahs]
    exact ⟨by simp, by simp, Or.inl rfl, hlast⟩

/-- C19, in the example session, whose PDUs at positions 1 and 2 both have ITT
7: for a scsi-response with ITT 7 the scan gives the same outcome when the
second of them is absent. -/
theorem only_first_match_processed_witness :
    process_scan rfc3720_opcodes (constant_handlers 0 1) example_session (inbound_header 0x21 7)
        (Nat.land (byte_at (inbound_header 0x21 7).hdr 0) 0x3f)
        (load_be32 (inbound_header 0x21 7).hdr 16)
        ([pending_pdu 5 0x21] ++ pending_pdu 7 0x21 :: []) 0
      = process_scan rfc3720_opcodes (constant_handlers 0 1) example_session
          (inbound_header 0x21 7) (Nat.land (byte_at (inbound_header 0x21 7).hdr 0) 0x3f)
          (load_be32 (inbound_header 0x21 7).hdr 16) example_session.waitpdu 0 :=
  (only_first_match_processed rfc3720_opcodes (constant_handlers 0 1) example_session
    (inbound_header 0x21 7)).2.2.2 [pending_pdu 5 0x21] (pending_pdu 7 0x21)
    [pending_pdu 7 0x23] [] (by decide)

end Libiscsi
